import Mathlib

/-!
Verification development for the address-resolution core
(`data_geocode/nominatim_search.py` and `data_geocode/nominatim_helpers/`).

Python strings are modelled as `List Char` (the inputs of interest are
ASCII), machine floats used only for coordinate arithmetic are modelled as
`ℚ`, fallible lookups as `Option`.  The haversine distance (pure real
trigonometry) is kept abstract as a function parameter `hav`; every control
flow decision taken on its result is modelled exactly.
-/

namespace Bbbs

/-- Python `\s` / `str.strip()` whitespace for ASCII input. -/
def isSpaceCh (c : Char) : Bool :=
  c = ' ' || c = '\t' || c = '\n' || c = '\x0d' || c = '\x0b' || c = '\x0c'

/-- Python `str.isdigit` on a single ASCII char / regex `\d`. -/
def isDigitCh (c : Char) : Bool :=
  c.isDigit

/-- Regex `\w` (word character) for ASCII input. -/
def isWordCh (c : Char) : Bool :=
  c.isAlphanum || c = '_'

/-- Python `str.casefold` restricted to ASCII = lowercasing. -/
def toLowerCh (c : Char) : Char :=
  c.toLower

/-- Lowercase a char list. -/
def lowerL (l : List Char) : List Char :=
  l.map toLowerCh

/-- Python `str.lstrip()`. -/
def pyLStrip (l : List Char) : List Char :=
  l.dropWhile isSpaceCh

/-- Python `str.rstrip()`. -/
def pyRStrip (l : List Char) : List Char :=
  (l.reverse.dropWhile isSpaceCh).reverse

/-- Python `str.strip()`. -/
def pyStrip (l : List Char) : List Char :=
  pyRStrip (pyLStrip l)

/-- Python `str.strip(chars)` for an explicit char set. -/
def pyStripSet (cs : List Char) (l : List Char) : List Char :=
  ((l.dropWhile cs.contains).reverse.dropWhile cs.contains).reverse

/-- Regex word boundary on the left of the scan point: the reversed prefix
is empty (start of string) or its head is a non-word character. -/
def prevNonWord (rev : List Char) : Bool :=
  match rev with
  | [] => true
  | c :: _ => !isWordCh c

/-- Regex word boundary on the right: end of string or a non-word char. -/
def nextNonWord (l : List Char) : Bool :=
  match l with
  | [] => true
  | c :: _ => !isWordCh c

/-- `re.search` driver: try a position matcher `f rev suffix` at every
position from the left; `rev` is the reversed prefix before the position.
Returns the prefix (in order) together with the matcher's output of the
leftmost position that matches. -/
def scanFirst (f : List Char → List Char → Option α) :
    List Char → List Char → Option (List Char × α)
  | rev, [] =>
    match f rev [] with
    | some a => some (rev.reverse, a)
    | none => none
  | rev, c :: rest =>
    match f rev (c :: rest) with
    | some a => some (rev.reverse, a)
    | none => scanFirst f (c :: rev) rest

/-- Position matcher for `\b(\d{5})(?:-\d{4})?\b` (the shared ZIP-5 regex of
`repair_zip_ri_ma` heuristic 1 and `_normalize_zip5`).  Returns the whole
matched span and the remaining suffix; the ZIP digits are the first five
characters of the span.  The optional `-\d{4}` group is tried first and a
failing trailing boundary falls back to the groupless match, exactly as the
backtracking regex engine does. -/
def zip5At (rev : List Char) (l : List Char) : Option (List Char × List Char) :=
  match l with
  | d1 :: d2 :: d3 :: d4 :: d5 :: rest =>
    if prevNonWord rev && ([d1, d2, d3, d4, d5].all isDigitCh) then
      match rest with
      | '-' :: e1 :: e2 :: e3 :: e4 :: rest2 =>
        if ([e1, e2, e3, e4].all isDigitCh) && nextNonWord rest2 then
          some ([d1, d2, d3, d4, d5, '-', e1, e2, e3, e4], rest2)
        else
          some ([d1, d2, d3, d4, d5], rest)
      | _ =>
        if nextNonWord rest then some ([d1, d2, d3, d4, d5], rest) else none
    else none
  | _ => none

/-- Leftmost `\b\d{5}(?:-\d{4})?\b` match of a string:
`(prefix, (matched span, suffix))`. -/
def findZip5 (l : List Char) : Option (List Char × List Char × List Char) :=
  scanFirst zip5At [] l

/-- `_normalize_zip5` (shared by `nominatim_result_check` and
`NominatimSearch`): strip, then extract the 5-digit group of the first
ZIP-5 match, else the empty string.  `None` input maps to `""`. -/
def normalizeZip5 (v : Option String) : String :=
  match v with
  | none => ""
  | some s =>
    let t := pyStrip s.data
    if t = [] then ""
    else
      match findZip5 t with
      | some (_, span, _) => String.mk (span.take 5)
      | none => ""

/-- `_normalize_zip5` on a plain string argument. -/
def normalizeZip5S (s : String) : String :=
  normalizeZip5 (some s)

/-! ### `zip_reapir.py`: heuristics 2-4 of `repair_zip_ri_ma` -/
/-- Case-insensitive literal matcher: consume input chars whose lowercase
form spells the (lowercase) pattern; returns (consumed original chars,
rest). -/
def stripLitC : List Char → List Char → Option (List Char × List Char)
  | [], l => some ([], l)
  | p :: ps, c :: cs =>
    if toLowerCh c = p then
      match stripLitC ps cs with
      | some (m, r) => some (c :: m, r)
      | none => none
    else none
  | _ :: _, [] => none

/-- Regex `\s+`: at least one whitespace char, consumed greedily;
returns (consumed, rest). -/
def dropSpaces1C (l : List Char) : Option (List Char × List Char) :=
  match l with
  | c :: rest =>
    if isSpaceCh c then some (c :: rest.takeWhile isSpaceCh, rest.dropWhile isSpaceCh)
    else none
  | [] => none

/-- Tail matcher for `\.?\s*$`: an optional dot followed by whitespace to
the end of the string. -/
def dotSpacesEnd (l : List Char) : Bool :=
  match l with
  | '.' :: r => r.all isSpaceCh
  | _ => l.all isSpaceCh

/-- Matcher for `(?:USA|US|United\s+States(?:\s+of\s+America)?)\.?\s*$`
(the `_COUNTRY_PATTERN` suffix of heuristic 2), alternatives tried in regex
order with backtracking. -/
def countryDot (l : List Char) : Bool :=
  (match stripLitC ['u', 's', 'a'] l with
   | some (_, r) => dotSpacesEnd r
   | none => false) ||
  (match stripLitC ['u', 's'] l with
   | some (_, r) => dotSpacesEnd r
   | none => false) ||
  (match stripLitC ['u', 'n', 'i', 't', 'e', 'd'] l with
   | some (_, r1) =>
     match dropSpaces1C r1 with
     | some (_, r2) =>
       match stripLitC ['s', 't', 'a', 't', 'e', 's'] r2 with
       | some (_, r3) =>
         dotSpacesEnd r3 ||
         (match dropSpaces1C r3 with
          | some (_, r4) =>
            match stripLitC ['o', 'f'] r4 with
            | some (_, r5) =>
              match dropSpaces1C r5 with
              | some (_, r6) =>
                match stripLitC ['a', 'm', 'e', 'r', 'i', 'c', 'a'] r6 with
                | some (_, r7) => dotSpacesEnd r7
                | none => false
              | none => false
            | none => false
          | none => false)
       | none => false
     | none => false
   | none => false)

/-- After the four digits of heuristic 2 the regex requires
`\b(?:\s*COUNTRY\.?)?\s*$`: end of string, only whitespace, or whitespace
followed by a country token reaching the end. -/
def restOkTrailing (r : List Char) : Bool :=
  match r with
  | [] => true
  | c :: rest =>
    if isSpaceCh c then
      rest.all isSpaceCh || countryDot ((c :: rest).dropWhile isSpaceCh)
    else false

/-- Position matcher for heuristic 2,
`\b(\d{4})\b(?:\s*COUNTRY)?\s*$`: returns (digits, suffix). -/
def zip4TrailingAt (rev l : List Char) : Option (List Char × List Char) :=
  match l with
  | d1 :: d2 :: d3 :: d4 :: rest =>
    if prevNonWord rev && ([d1, d2, d3, d4].all isDigitCh) && restOkTrailing rest then
      some ([d1, d2, d3, d4], rest)
    else none
  | _ => none

/-- All ways the `_RI_MA_STATE_PATTERN` alternation
`(?:RI|MA|Rhode\s+Island|Massachusetts)` can match at the head of the
input, in regex alternation order: (consumed chars, rest). -/
def stateAltMatches (l : List Char) : List (List Char × List Char) :=
  (match stripLitC ['r', 'i'] l with
   | some x => [x]
   | none => []) ++
  (match stripLitC ['m', 'a'] l with
   | some x => [x]
   | none => []) ++
  (match stripLitC ['r', 'h', 'o', 'd', 'e'] l with
   | some (c1, r1) =>
     match dropSpaces1C r1 with
     | some (c2, r2) =>
       match stripLitC ['i', 's', 'l', 'a', 'n', 'd'] r2 with
       | some (c3, r3) => [(c1 ++ c2 ++ c3, r3)]
       | none => []
     | none => []
   | none => []) ++
  (match stripLitC ['m', 'a', 's', 's', 'a', 'c', 'h', 'u', 's', 'e', 't', 't', 's'] l with
   | some x => [x]
   | none => [])

/-- Continuation of heuristic 3 after a state-token alternative: require
the trailing `\b`, consume `\W*`, then match `(\d{4})\b`.  On failure the
regex backtracks into the next alternative. -/
def h3Digits : List (List Char × List Char) → Option (List Char × List Char × List Char)
  | [] => none
  | (tok, rest1) :: alts =>
    if nextNonWord rest1 then
      let gap := rest1.takeWhile (fun c => !isWordCh c)
      let rest2 := rest1.dropWhile (fun c => !isWordCh c)
      match rest2 with
      | d1 :: d2 :: d3 :: d4 :: rest3 =>
        if ([d1, d2, d3, d4].all isDigitCh) && nextNonWord rest3 then
          some (tok ++ gap, [d1, d2, d3, d4], rest3)
        else h3Digits alts
      | _ => h3Digits alts
    else h3Digits alts

/-- Position matcher for heuristic 3, `\b(STATE)\b\W*(\d{4})\b`:
returns (consumed chars before the digit group, digits, suffix). -/
def zip4AfterStateAt (rev l : List Char) : Option (List Char × List Char × List Char) :=
  if prevNonWord rev then h3Digits (stateAltMatches l) else none

/-- State-alternative check for heuristic 4: some alternative matches and
is followed by a word boundary. -/
def h4State : List (List Char × List Char) → Bool
  | [] => false
  | (_, r) :: alts => nextNonWord r || h4State alts

/-- Position matcher for heuristic 4, `\b(\d{4})\b\W*\b(STATE)\b`:
returns (digits, suffix after the digits — the replaced span is only the
digit group). -/
def zip4BeforeStateAt (rev l : List Char) : Option (List Char × List Char) :=
  match l with
  | d1 :: d2 :: d3 :: d4 :: rest =>
    if prevNonWord rev && ([d1, d2, d3, d4].all isDigitCh) && nextNonWord rest then
      if h4State (stateAltMatches (rest.dropWhile (fun c => !isWordCh c))) then
        some ([d1, d2, d3, d4], rest)
      else none
    else none
  | _ => none

/-- `_UNIT_WORDS_PATTERN` alternatives. -/
def unitWords : List (List Char) :=
  [['a', 'p', 't'], ['a', 'p', 'a', 'r', 't', 'm', 'e', 'n', 't'],
   ['u', 'n', 'i', 't'], ['s', 't', 'e'], ['s', 'u', 'i', 't', 'e'], ['#'],
   ['f', 'l'], ['f', 'l', 'o', 'o', 'r'], ['b', 'l', 'd', 'g'],
   ['b', 'u', 'i', 'l', 'd', 'i', 'n', 'g']]

/-- `_looks_like_unit_number_context`: case-insensitive search for
`UNIT_WORDS\.?\s*$` — the text, right-stripped, ends with a unit word
optionally followed by a dot. -/
def looksLikeUnitNumberContext (before : List Char) : Bool :=
  let r := (lowerL (pyRStrip before)).reverse
  unitWords.any (fun w => w.reverse.isPrefixOf r || ('.' :: w.reverse).isPrefixOf r)

/-- `_looks_like_po_box_context`: case-insensitive search for
`(?:p\.?\s*o\.?\s*box|po\s*box)\s*$` (the second alternative is an
instance of the first), checked backwards from the right-stripped end. -/
def looksLikePoBoxContext (before : List Char) : Bool :=
  let r := (lowerL (pyRStrip before)).reverse
  match r with
  | 'x' :: 'o' :: 'b' :: r1 =>
    let r2 := r1.dropWhile isSpaceCh
    let r3 := match r2 with
      | '.' :: t => t
      | _ => r2
    match r3 with
    | 'o' :: r4 =>
      let r5 := r4.dropWhile isSpaceCh
      let r6 := match r5 with
        | '.' :: t => t
        | _ => r5
      match r6 with
      | 'p' :: _ => true
      | _ => false
    | _ => false
  | _ => false

/-- `re.sub(r"\s{2,}", " ", ·)`: each run of two or more whitespace chars
becomes a single space; a lone whitespace char is kept as-is. -/
def collapseSpaces2 : List Char → List Char
  | [] => []
  | [c] => [c]
  | c :: d :: rest =>
    if isSpaceCh c && isSpaceCh d then
      ' ' :: collapseSpaces2 ((d :: rest).dropWhile isSpaceCh)
    else c :: collapseSpaces2 (d :: rest)
termination_by l => l.length
decreasing_by
  · have h1 := (List.dropWhile_sublist (l := d :: rest) isSpaceCh).length_le
    simp only [List.length_cons] at h1 ⊢
    omega
  · simp

/-- `re.sub(r"\s+,", ",", ·)`. -/
def subSpaceComma : List Char → List Char
  | [] => []
  | c :: rest =>
    if isSpaceCh c then
      match h : rest.dropWhile isSpaceCh with
      | ',' :: r3 => ',' :: subSpaceComma r3
      | _ => c :: subSpaceComma rest
    else c :: subSpaceComma rest
termination_by l => l.length
decreasing_by
  · rename_i t hs
    have h1 := (List.dropWhile_sublist (l := t) isSpaceCh).length_le
    rw [h] at h1
    simp only [List.length_cons] at h1 ⊢
    omega
  · simp
  · simp

/-- `re.sub(r"\s*,\s*", ", ", ·)`. -/
def subCommaSpace : List Char → List Char
  | [] => []
  | c :: rest =>
    if c = ',' then ',' :: ' ' :: subCommaSpace (rest.dropWhile isSpaceCh)
    else if isSpaceCh c then
      match h : rest.dropWhile isSpaceCh with
      | ',' :: r3 => ',' :: ' ' :: subCommaSpace (r3.dropWhile isSpaceCh)
      | _ => c :: subCommaSpace rest
    else c :: subCommaSpace rest
termination_by l => l.length
decreasing_by
  · rename_i t hc
    have h1 := (List.dropWhile_sublist (l := t) isSpaceCh).length_le
    simp only [List.length_cons] at h1 ⊢
    omega
  · rename_i t hc hs
    have h1 := (List.dropWhile_sublist (l := t) isSpaceCh).length_le
    rw [h] at h1
    have h2 := (List.dropWhile_sublist (l := r3) isSpaceCh).length_le
    simp only [List.length_cons] at h1 h2 ⊢
    omega
  · simp
  · simp

/-- `_replace_span_and_cleanup`: splice the replacement into the span and
run the punctuation cleanup chain (strip, collapse whitespace runs, trim
edge `" ,;"`, drop spaces before commas, normalize spacing around commas,
strip). -/
def replaceSpanCleanup (pre repl post : List Char) : List Char :=
  pyStrip (subCommaSpace (subSpaceComma
    (pyStripSet [' ', ',', ';'] (collapseSpaces2 (pyStrip (pre ++ repl ++ post))))))

/-- `ZipRepairResult` of `zip_reapir.py`. -/
structure ZipRepairResult where
  cleanedAddress : String
  zip5 : Option String
  zipSource : Option String
deriving Repr, DecidableEq

/-- Heuristic 4 stage of `repair_zip_ri_ma` (`zip4_before_state`),
reached when heuristics 1-3 did not produce a ZIP. -/
def tryBeforeState (s : List Char) : ZipRepairResult :=
  match scanFirst zip4BeforeStateAt [] s with
  | some (pre, digits, rest) =>
    if !looksLikeUnitNumberContext pre && !looksLikePoBoxContext pre then
      ⟨String.mk (replaceSpanCleanup pre ('0' :: digits) rest),
       some (String.mk ('0' :: digits)), some "zip4_before_state"⟩
    else ⟨String.mk s, none, none⟩
  | none => ⟨String.mk s, none, none⟩

/-- Heuristic 3 stage of `repair_zip_ri_ma` (`zip4_after_state`);
falls through to heuristic 4. -/
def tryAfterState (s : List Char) : ZipRepairResult :=
  match scanFirst zip4AfterStateAt [] s with
  | some (pre, consumed, digits, rest) =>
    if !looksLikeUnitNumberContext (pre ++ consumed) && !looksLikePoBoxContext (pre ++ consumed) then
      ⟨String.mk (replaceSpanCleanup (pre ++ consumed) ('0' :: digits) rest),
       some (String.mk ('0' :: digits)), some "zip4_after_state"⟩
    else tryBeforeState s
  | none => tryBeforeState s

/-- `repair_zip_ri_ma`.  The `None` input branch of the Python function is
outside the `String` domain; all other branches are modelled exactly.  For
heuristic 2 the regex match extends to the end of the string (it is
anchored by `\s*$`), so the replaced span swallows the whole tail. -/
def repairZipRiMa (address : String) : ZipRepairResult :=
  let s := pyStrip address.data
  if s = [] then ⟨String.mk s, none, none⟩
  else
    match findZip5 s with
    | some (pre, span, rest) =>
      let z := span.take 5
      ⟨String.mk (replaceSpanCleanup pre z rest), some (String.mk z), some "zip5"⟩
    | none =>
      match scanFirst zip4TrailingAt [] s with
      | some (pre, digits, _rest) =>
        if !looksLikeUnitNumberContext pre && !looksLikePoBoxContext pre then
          ⟨String.mk (replaceSpanCleanup pre ('0' :: digits) []),
           some (String.mk ('0' :: digits)), some "zip4_trailing"⟩
        else tryAfterState s
      | none => tryAfterState s

/-! ### `nominatim_result_check.py` -/
/-- Characters kept by `_normalize_text`'s `[^a-z0-9]` classes after
casefolding (ASCII). -/
def isKeptCh (c : Char) : Bool :=
  ('a' ≤ c && c ≤ 'z') || c.isDigit

/-- Maximal runs of `p`-characters (the complement runs are the separators
that `re.sub(r"[^a-z0-9]+", " ", ·)` turns into single spaces before
`" ".join(text.split())`). -/
def splitRunsGo (p : Char → Bool) : List Char → List Char → List (List Char)
  | cur, [] =>
    match cur with
    | [] => []
    | _ :: _ => [cur.reverse]
  | cur, c :: rest =>
    if p c then splitRunsGo p (c :: cur) rest
    else
      match cur with
      | [] => splitRunsGo p [] rest
      | _ :: _ => cur.reverse :: splitRunsGo p [] rest

def splitRuns (p : Char → Bool) (l : List Char) : List (List Char) :=
  splitRunsGo p [] l

/-- `_normalize_text`: strip, casefold, replace `[^a-z0-9]+` runs by
single spaces, collapse with `" ".join(text.split())`.  The result is the
list of alphanumeric runs of the lowercased text joined by single spaces
(leading/trailing separators vanish, so the initial strip is absorbed). -/
def normalizeTextL (l : List Char) : List Char :=
  List.intercalate [' '] (splitRuns isKeptCh (lowerL l))

/-- `_normalize_text` on an optional string (Python `None` → `""`). -/
def normalizeText (v : Option String) : String :=
  match v with
  | none => ""
  | some s => String.mk (normalizeTextL s.data)

/-- `_US_STATE_ABBR_TO_NAME` (insertion order preserved). -/
def usStateAbbrToName : List (String × String) :=
  [("AL", "Alabama"), ("AK", "Alaska"), ("AZ", "Arizona"), ("AR", "Arkansas"),
   ("CA", "California"), ("CO", "Colorado"), ("CT", "Connecticut"),
   ("DE", "Delaware"), ("FL", "Florida"), ("GA", "Georgia"), ("HI", "Hawaii"),
   ("ID", "Idaho"), ("IL", "Illinois"), ("IN", "Indiana"), ("IA", "Iowa"),
   ("KS", "Kansas"), ("KY", "Kentucky"), ("LA", "Louisiana"), ("ME", "Maine"),
   ("MD", "Maryland"), ("MA", "Massachusetts"), ("MI", "Michigan"),
   ("MN", "Minnesota"), ("MS", "Mississippi"), ("MO", "Missouri"),
   ("MT", "Montana"), ("NE", "Nebraska"), ("NV", "Nevada"),
   ("NH", "New Hampshire"), ("NJ", "New Jersey"), ("NM", "New Mexico"),
   ("NY", "New York"), ("NC", "North Carolina"), ("ND", "North Dakota"),
   ("OH", "Ohio"), ("OK", "Oklahoma"), ("OR", "Oregon"), ("PA", "Pennsylvania"),
   ("RI", "Rhode Island"), ("SC", "South Carolina"), ("SD", "South Dakota"),
   ("TN", "Tennessee"), ("TX", "Texas"), ("UT", "Utah"), ("VT", "Vermont"),
   ("VA", "Virginia"), ("WA", "Washington"), ("WV", "West Virginia"),
   ("WI", "Wisconsin"), ("WY", "Wyoming"), ("DC", "District of Columbia"),
   ("PR", "Puerto Rico"), ("GU", "Guam"), ("VI", "U.S. Virgin Islands"),
   ("AS", "American Samoa"), ("MP", "Northern Mariana Islands")]

/-- Membership in `_US_STATE_ABBR_TO_NAME` (dict key lookup). -/
def isUsStateAbbr (s : String) : Bool :=
  usStateAbbrToName.any (fun p => p.1 = s)

/-- `_STATE_NORMALIZED_TO_ABBR`: normalized abbreviations and normalized
full names mapped to the abbreviation.  The Python `dict.update` lets name
keys override abbreviation keys; the two normalized key families are
disjoint (two-letter vs longer), so an association list searched names
first is an exact model. -/
def stateNormalizedToAbbr : List (String × String) :=
  (usStateAbbrToName.map fun p => (normalizeText (some p.2), p.1)) ++
    (usStateAbbrToName.map fun p => (normalizeText (some p.1), p.1))

/-- Position matcher for `\bUS[-\s]([A-Za-z]{2})\b` (case-insensitive):
returns the two captured letters. -/
def isoStateAt (rev l : List Char) : Option (List Char) :=
  match l with
  | u :: s :: sep :: a :: b :: rest =>
    if prevNonWord rev && toLowerCh u = 'u' && toLowerCh s = 's' &&
        (sep = '-' || isSpaceCh sep) && a.isAlpha && b.isAlpha && nextNonWord rest then
      some [a, b]
    else none
  | _ => none

/-- ASCII uppercase. -/
def upperL (l : List Char) : List Char :=
  l.map Char.toUpper

/-- `_normalize_state` on an optional value. -/
def normalizeState (v : Option String) : String :=
  match v with
  | none => ""
  | some str =>
    let raw := pyStrip str.data
    if raw = [] then ""
    else
      let isoHit : Option String :=
        match scanFirst isoStateAt [] raw with
        | some (_, letters) =>
          let cand := String.mk (upperL letters)
          if isUsStateAbbr cand then some cand else none
        | none => none
      match isoHit with
      | some cand => cand
      | none =>
        let normalized := normalizeTextL raw
        if normalized = [] then ""
        else
          match stateNormalizedToAbbr.lookup (String.mk normalized) with
          | some abbr => abbr
          | none =>
            if normalized.length = 2 then
              let cand := String.mk (upperL normalized)
              if isUsStateAbbr cand then cand else String.mk normalized
            else String.mk normalized

/-- `_normalize_state` on a plain string. -/
def normalizeStateS (s : String) : String :=
  normalizeState (some s)

/-- Boolean substring containment (Python `in` on strings). -/
def isInfixOfB (needle : List Char) : List Char → Bool
  | [] => needle.isPrefixOf []
  | c :: rest => needle.isPrefixOf (c :: rest) || isInfixOfB needle rest

/-- `_is_city_level_match`: both normalized forms nonempty and equal, or
the space-padded expected form is a substring of the space-padded
candidate form. -/
def isCityLevelMatch (expectedTown : String) (value : Option String) : Bool :=
  let e := normalizeTextL expectedTown.data
  let c := match value with
    | some v => normalizeTextL v.data
    | none => []
  if e = [] || c = [] then false
  else e = c || isInfixOfB (' ' :: (e ++ [' '])) (' ' :: (c ++ [' ']))

/-- One Nominatim JSONv2 candidate (`SearchCandidate`): the fields read by
`nominatim_result_check` and `_request`.  `cls`/`typ` stand for the
`class`/`type` JSON keys; bounding-box entries are `none` when the numeric
string is unparsable, `placeRank` is `none` when absent or unparsable. -/
structure Candidate where
  lat : Option String := none
  lon : Option String := none
  displayName : Option String := none
  cls : Option String := none
  typ : Option String := none
  placeRank : Option Int := none
  boundingbox : Option (List (Option ℚ)) := none
  addrPostcode : Option String := none
  addrCity : Option String := none
  addrTown : Option String := none
  addrVillage : Option String := none
  addrState : Option String := none
  addrStateCode : Option String := none
  addrIso4 : Option String := none
  addrIso6 : Option String := none
deriving Repr, DecidableEq

/-- `_city_match_from_address_levels` over `_CITY_LEVEL_KEYS =
(city, town, village)`. -/
def cityMatchFromAddressLevels (expectedTown : String) (res : Candidate) : Bool :=
  isCityLevelMatch expectedTown res.addrCity ||
    isCityLevelMatch expectedTown res.addrTown ||
    isCityLevelMatch expectedTown res.addrVillage

/-- `_bbox_max_dim_m`, parameterized by the haversine distance `hav`
(arguments in source order `lat1 lon1 lat2 lon2`): `none` for a missing,
non-4-element, or unparsable box, else the max of the north-south edge and
the east-west edge at mid latitude. -/
def bboxMaxDimM (hav : ℚ → ℚ → ℚ → ℚ → ℚ) (bbox : Option (List (Option ℚ))) : Option ℚ :=
  match bbox with
  | none => none
  | some entries =>
    match entries with
    | [some sLat, some nLat, some wLon, some eLon] =>
      let midLat := (sLat + nLat) / 2
      let ns := hav sLat wLon nLat wLon
      let ew := hav midLat wLon midLat eLon
      some (max ns ew)
    | _ => none

/-- `_denylisted_class_type`. -/
def denylistedClassType (res : Candidate) : Bool :=
  res.cls == some "boundary" ||
    (res.cls == some "place" &&
      (match res.typ with
       | some t =>
         ["postcode", "city", "town", "village", "hamlet", "suburb",
          "neighbourhood"].contains t
       | none => false))

/-- `SimpleCfg` with its defaults (1609.34 m, rank 26). -/
structure SimpleCfg where
  maxLinearM : ℚ := 160934 / 100
  minPlaceRank : Int := 26
deriving Repr, DecidableEq

/-- Default-constructed `SimpleCfg()` used by `nominatim_result_check`. -/
def defaultCfg : SimpleCfg := {}

/-- Python `a or b` on optional strings (`None` and `""` are falsy). -/
def pyOrOpt (a b : Option String) : Option String :=
  match a with
  | some s => if s = "" then b else some s
  | none => b

/-- The `zip_match` flag of check 3. -/
def zipMatchB (expectedZip : String) (res : Candidate) : Bool :=
  let e := normalizeZip5S expectedZip
  let r := normalizeZip5 res.addrPostcode
  !(e = "") && !(r = "") && e = r

/-- The `town_match` flag of check 3. -/
def townMatchB (expectedTown : String) (res : Candidate) : Bool :=
  cityMatchFromAddressLevels expectedTown res

/-- The `state_match` flag of check 3, including the
`state or state_code or ISO3166-2-lvl4 or ISO3166-2-lvl6` fallback chain. -/
def stateMatchB (expectedState : String) (res : Candidate) : Bool :=
  let e := normalizeStateS expectedState
  let r := normalizeState
    (pyOrOpt res.addrState (pyOrOpt res.addrStateCode (pyOrOpt res.addrIso4 res.addrIso6)))
  !(e = "") && !(r = "") && e = r

/-- Result of `nominatim_result_check` together with the diagnostics the
claims are about. -/
structure CheckOutcome where
  accepted : Bool
  reasons : List String
  zipMatch : Bool
  townMatch : Bool
  stateMatch : Bool
  locationMatch : Bool
  bboxMaxDim : Option ℚ
deriving Repr, DecidableEq

/-- `nominatim_result_check`: all four checks evaluated, reasons collected
in source order, acceptance iff no reason fired. -/
def nominatimResultCheck (hav : ℚ → ℚ → ℚ → ℚ → ℚ) (res : Candidate)
    (expectedZip expectedTown expectedState : String)
    (cfg : SimpleCfg := defaultCfg) : CheckOutcome :=
  let r1 : List String := if denylistedClassType res then ["BROAD_CLASS_TYPE"] else []
  let r2 : List String :=
    match res.placeRank with
    | some pr => if pr < cfg.minPlaceRank then ["PLACE_RANK_TOO_LOW"] else []
    | none => []
  let bd := bboxMaxDimM hav res.boundingbox
  let r3 : List String :=
    match bd with
    | none => ["MISSING_BBOX"]
    | some d => if d > cfg.maxLinearM then ["TOO_LONG_FEATURE"] else []
  let zm := zipMatchB expectedZip res
  let tm := townMatchB expectedTown res
  let sm := stateMatchB expectedState res
  let lm := zm || (tm && sm)
  let r4 : List String := if lm then [] else ["ZIP_OR_CITY_STATE_MISMATCH"]
  let reasons := r1 ++ r2 ++ r3 ++ r4
  { accepted := reasons.isEmpty, reasons := reasons, zipMatch := zm,
    townMatch := tm, stateMatch := sm, locationMatch := lm, bboxMaxDim := bd }

/-! ### `_request` and the search cascade of `NominatimSearch.search` -/
/-- Outcome of the HTTP call inside `_request` (`requests.get` + `.json()`):
timeout, request error, or a JSON candidate list. -/
inductive HttpResult where
  | timeout : HttpResult
  | reqError : String → HttpResult
  | ok : List Candidate → HttpResult

/-- The validator call made by `_request`: `nominatim_result_check(res,
expected_zip=..., expected_town=...)` — `expected_state` and `cfg` keep
their defaults (`""` and `SimpleCfg()`). -/
def requestCheck (hav : ℚ → ℚ → ℚ → ℚ → ℚ) (res : Candidate)
    (expectedZip expectedTown : String) : CheckOutcome :=
  nominatimResultCheck hav res expectedZip expectedTown ""

/-- The candidate loop of `_request`: first accepted candidate with its
index. -/
def firstAcceptedAux (hav : ℚ → ℚ → ℚ → ℚ → ℚ) (ez et : String) :
    Nat → List Candidate → Option (Nat × Candidate)
  | _, [] => none
  | i, c :: rest =>
    if (requestCheck hav c ez et).accepted then some (i, c)
    else firstAcceptedAux hav ez et (i + 1) rest

/-- `reason_text = rejection_reason or "rejected"` for one candidate. -/
def reasonTextOf (hav : ℚ → ℚ → ℚ → ℚ → ℚ) (c : Candidate) (ez et : String) : String :=
  let j := String.intercalate "," (requestCheck hav c ez et).reasons
  if j = "" then "rejected" else j

/-- Result of `_request` (the parts that feed the cascade and the trace). -/
structure ReqOut where
  ok : Bool
  error : String
  status : String
  lat : Option String
  lon : Option String
  displayName : String
deriving Repr, DecidableEq

/-- `_request`: HTTP errors, empty result list, candidate loop with the
validator, and the consolidated rejection error. -/
def requestRun (hav : ℚ → ℚ → ℚ → ℚ → ℚ) (http : HttpResult) (ez et : String) : ReqOut :=
  match http with
  | .timeout => ⟨false, "Timeout", "error", none, none, ""⟩
  | .reqError m => ⟨false, m, "error", none, none, ""⟩
  | .ok [] => ⟨false, "No results", "none_found", none, none, ""⟩
  | .ok (c :: cs) =>
    match firstAcceptedAux hav ez et 0 (c :: cs) with
    | some (_, acc) => ⟨true, "", "returned", acc.lat, acc.lon, acc.displayName.getD ""⟩
    | none =>
      let texts := (c :: cs).map fun x => reasonTextOf hav x ez et
      ⟨false, "No acceptable results; rejected_reasons=" ++ String.intercalate " | " texts,
       "returned", none, none, ""⟩

/-- The `address_tags_expanded` values consumed by the cascade
(`.get(tag, "")` semantics: `""` = absent). -/
structure Tags where
  addressNumber : String := ""
  streetNamePreDirectional : String := ""
  streetNamePreType : String := ""
  streetName : String := ""
  streetNamePostType : String := ""
  streetNamePostDirectional : String := ""
  placeName : String := ""
  stateName : String := ""
  zipCode : String := ""
deriving Repr, DecidableEq

/-- `_build_street_value`: join the nonempty street parts with single
spaces and strip. -/
def buildStreetValue (t : Tags) : String :=
  String.mk (pyStrip (String.intercalate " "
    ([t.streetNamePreDirectional, t.streetNamePreType, t.streetName,
      t.streetNamePostType, t.streetNamePostDirectional].filter (fun s => s ≠ ""))).data)

/-- Outcome of `_postcode_candidates`: a lookup-error code
(`db_unavailable` / `db_timeout` / `db_error`) or road-name candidates. -/
inductive PcResult where
  | err : String → PcResult
  | ok : List String → PcResult

/-- `location_property_tiger` join row as read by
`_search_tiger_extrapolate_snap` (text columns plus line endpoints; a
`none` coordinate models a SQL NULL). -/
structure TigerRow where
  startnumberText : Option String := none
  endnumberText : Option String := none
  stepText : Option String := none
  startLat : Option ℚ := none
  startLon : Option ℚ := none
  endLat : Option ℚ := none
  endLon : Option ℚ := none
  roadNameText : Option String := none
deriving Repr, DecidableEq

/-- Outcome of the TIGER database query. -/
inductive DbResult where
  | unavailable : DbResult
  | err : String → DbResult
  | rows : List TigerRow → DbResult

/-- `_parse_house_number_int`: first maximal digit run, as an integer. -/
def digitsToNat (ds : List Char) : Nat :=
  ds.foldl (fun n c => n * 10 + (c.toNat - '0'.toNat)) 0

/-- `_parse_house_number_int`. -/
def parseHouseNumberInt (v : Option String) : Option Int :=
  match v with
  | none => none
  | some s =>
    match (s.data.dropWhile fun c => !isDigitCh c).takeWhile isDigitCh with
    | [] => none
    | ds => some (digitsToNat ds : Int)

/-- The parity gate of `_search_tiger_extrapolate_snap`:
`parity_ok = True`, and when `step_num == 2`,
`parity_ok = (house_num % 2) == (start_num % 2)` — the comparison uses the
raw `startnumber`, not the normalized low end. -/
def tigerParityOk (houseNum startNum : Int) (stepNum : Option Int) : Bool :=
  if stepNum == some 2 then houseNum % 2 == startNum % 2 else true

/-- One usable TIGER row after range/geometry validation and
normalization. -/
structure ValidRow where
  index : Nat
  startNum : Int
  endNum : Int
  stepNum : Option Int
  lowNum : Int
  highNum : Int
  lowLat : ℚ
  lowLon : ℚ
  highLat : ℚ
  highLon : ℚ
  parityOk : Bool
  rangeSpan : Int
  midpoint : ℚ
deriving Repr, DecidableEq

/-- Row validation and normalization (`low = min`, `high = max`, endpoint
coordinates reassigned to follow the ordering of the raw numbers). -/
def mkValidRow (houseNum : Int) (idx : Nat) (r : TigerRow) : Option ValidRow :=
  match parseHouseNumberInt r.startnumberText, parseHouseNumberInt r.endnumberText,
      r.startLat, r.startLon, r.endLat, r.endLon with
  | some s, some e, some sLat, some sLon, some eLat, some eLon =>
    let low := if s ≤ e then s else e
    let high := if s ≤ e then e else s
    let stepNum := parseHouseNumberInt r.stepText
    let coords := if s ≤ e then (sLat, sLon, eLat, eLon) else (eLat, eLon, sLat, sLon)
    some
      { index := idx, startNum := s, endNum := e, stepNum := stepNum,
        lowNum := low, highNum := high,
        lowLat := coords.1, lowLon := coords.2.1,
        highLat := coords.2.2.1, highLon := coords.2.2.2,
        parityOk := tigerParityOk houseNum s stepNum,
        rangeSpan := high - low, midpoint := ((low : ℚ) + (high : ℚ)) / 2 }
  | _, _, _, _, _, _ => none

/-- `valid_rows` built from the returned rows in order. -/
def validRowsOf (houseNum : Int) (rows : List TigerRow) : List ValidRow :=
  rows.enum.filterMap fun p => mkValidRow houseNum p.1 p.2

/-- Python `min(..., key=...)` with a strict-lt comparison on keys: keeps
the first occurrence of the minimum. -/
def pyMinBy {α κ : Type} (ltb : κ → κ → Bool) (key : α → κ) : α → List α → α
  | best, [] => best
  | best, x :: xs => pyMinBy ltb key (if ltb (key x) (key best) then x else best) xs

/-- Python tuple comparison for the within-range selection key
`(range_span, abs(house_num - midpoint))`. -/
def keyLtIQ (a b : Int × ℚ) : Bool :=
  a.1 < b.1 || (a.1 == b.1 && a.2 < b.2)

/-- Python `abs` on a rational. -/
def ratAbs (q : ℚ) : ℚ :=
  if q < 0 then -q else q

/-- Python `abs` on an integer. -/
def intAbs (n : Int) : Int :=
  if n < 0 then -n else n

/-- Selection key of the within-range branch. -/
def selKey (h : Int) (r : ValidRow) : Int × ℚ :=
  (r.rangeSpan, ratAbs ((h : ℚ) - r.midpoint))

/-- `frac = max(0.0, min(1.0, frac))`. -/
def clamp01 (q : ℚ) : ℚ :=
  max 0 (min 1 q)

/-- `_lerp`. -/
def lerpQ (s e frac : ℚ) : ℚ :=
  s + (e - s) * frac

/-- The parity-passing rows containing the house number. -/
def insideRows (h : Int) (vs : List ValidRow) : List ValidRow :=
  vs.filter fun r => r.parityOk && decide (r.lowNum ≤ h) && decide (h ≤ r.highNum)

/-- The between-range pair scan: adjacent pairs of the
`(low, high)`-sorted rows, both parity-passing and bracketing the house
number; first hit kept, replaced only by a strictly smaller gap. -/
def pickBetween (h : Int) (pairs : List (ValidRow × ValidRow)) :
    Option (ValidRow × ValidRow) :=
  pairs.foldl
    (fun acc lr =>
      if !(lr.1.parityOk && lr.2.parityOk) then acc
      else if lr.1.highNum < h && h < lr.2.lowNum then
        match acc with
        | none => some lr
        | some best =>
          if lr.2.lowNum - lr.1.highNum < best.2.lowNum - best.1.highNum then some lr
          else acc
      else acc)
    none

/-- One segment endpoint for the snap branch. -/
structure Endpoint where
  row : ValidRow
  endpointNum : Int
  lat : ℚ
  lon : ℚ
deriving Repr, DecidableEq

/-- Endpoint list in source order: low then high endpoint per row. -/
def endpointsOf (vs : List ValidRow) : List Endpoint :=
  vs.flatMap fun r =>
    [⟨r, r.lowNum, r.lowLat, r.lowLon⟩, ⟨r, r.highNum, r.highLat, r.highLon⟩]

/-- Selected TIGER coordinate. -/
structure TigerSel where
  mode : String
  lat : ℚ
  lon : ℚ
  indices : List Nat
deriving Repr, DecidableEq

/-- The selection logic of `_search_tiger_extrapolate_snap`
(within-range interpolation, between-range extrapolation,
nearest-endpoint snap). -/
def tigerLocate (h : Int) (vs : List ValidRow) : Option TigerSel :=
  match insideRows h vs with
  | r0 :: rs =>
    let best := pyMinBy keyLtIQ (selKey h) r0 rs
    let frac0 : ℚ :=
      if best.rangeSpan > 0 then ((h : ℚ) - (best.lowNum : ℚ)) / (best.rangeSpan : ℚ)
      else 1 / 2
    let frac := clamp01 frac0
    some ⟨"extrapolated", lerpQ best.lowLat best.highLat frac,
      lerpQ best.lowLon best.highLon frac, [best.index]⟩
  | [] =>
    let sorted := vs.mergeSort fun a b =>
      a.lowNum < b.lowNum || (a.lowNum == b.lowNum && a.highNum ≤ b.highNum)
    match pickBetween h (sorted.zip (sorted.drop 1)) with
    | some lr =>
      let gap := lr.2.lowNum - lr.1.highNum
      let frac0 : ℚ := if gap > 0 then ((h : ℚ) - (lr.1.highNum : ℚ)) / (gap : ℚ) else 1 / 2
      let frac := clamp01 frac0
      some ⟨"extrapolated", lerpQ lr.1.highLat lr.2.lowLat frac,
        lerpQ lr.1.highLon lr.2.lowLon frac, [lr.1.index, lr.2.index]⟩
    | none =>
      let eps := endpointsOf vs
      let pe := eps.filter fun e => e.row.parityOk
      let chosen := if pe ≠ [] then pe else eps
      match chosen with
      | [] => none
      | e0 :: es =>
        let nearest := pyMinBy (fun a b : Int => decide (a < b))
          (fun e => intAbs (h - e.endpointNum)) e0 es
        some ⟨"snapped", nearest.lat, nearest.lon, [nearest.row.index]⟩

/-- Result of `_search_tiger_extrapolate_snap` as seen by the cascade. -/
structure TigerOut where
  ok : Bool
  error : String
  status : String
  mode : String
  dbUsed : Bool
  lat : Option String
  lon : Option String
deriving Repr, DecidableEq

/-- `_search_tiger_extrapolate_snap`.  `fmt` abstracts the final
`f"{value:.7f}"` float formatting (only its nonemptiness matters to the
callers); `db` abstracts the psycopg connection/query. -/
def tigerRun (fmt : ℚ → String) (db : DbResult) (zipCode street addressNumber : String) :
    TigerOut :=
  match parseHouseNumberInt (some addressNumber) with
  | none =>
    ⟨false, "missing_required_inputs:zip_or_street_or_address_number", "skipped",
     "unsuccessful", false, none, none⟩
  | some houseNum =>
    if zipCode = "" || street = "" then
      ⟨false, "missing_required_inputs:zip_or_street_or_address_number", "skipped",
       "unsuccessful", false, none, none⟩
    else
      match db with
      | .unavailable => ⟨false, "db_unavailable", "error", "unsuccessful", false, none, none⟩
      | .err m => ⟨false, "tiger_query_error:" ++ m, "error", "unsuccessful", true, none, none⟩
      | .rows [] => ⟨false, "No TIGER rows returned", "none_found", "unsuccessful", true, none, none⟩
      | .rows (r :: rs) =>
        let vs := validRowsOf houseNum (r :: rs)
        if vs = [] then
          ⟨false, "No usable TIGER rows", "returned", "unsuccessful", true, none, none⟩
        else
          match tigerLocate houseNum vs with
          | some sel =>
            ⟨true, "", "returned", sel.mode, true, some (fmt sel.lat), some (fmt sel.lon)⟩
          | none =>
            ⟨false, "Unable to compute TIGER extrapolated point", "returned",
             "unsuccessful", true, none, none⟩

/-- One `search_attempts` trace entry (name, attempted flag,
`result_status`, acceptance, recorded error, skip reason). -/
structure TraceEntry where
  name : String
  attempted : Bool
  status : String
  ok : Bool
  error : String
  skipReason : String
deriving Repr, DecidableEq

/-- `_build_skipped_search_detail`. -/
def mkSkipEntry (name reason : String) : TraceEntry :=
  ⟨name, false, "skipped", false, "", reason⟩

/-- Trace entry of an attempted `_request`. -/
def mkReqEntry (name : String) (r : ReqOut) : TraceEntry :=
  ⟨name, true, r.status, r.ok, r.error, ""⟩

/-- `ResolutionResult` as assembled by `search`/`_finish`. -/
structure CascadeOut where
  trace : List TraceEntry
  error : String
  success : Bool
  method : String
  latitude : Option String
  longitude : Option String
deriving Repr, DecidableEq

/-- Python string truthiness of an optional latitude/longitude. -/
def pyTruthy (o : Option String) : Bool :=
  match o with
  | some s => s ≠ ""
  | none => false

/-- `_finish`: `search_successful = bool(lat and lon)`,
`search_method_accepted = method if successful else "none"`. -/
def cascadeFinish (trace : List TraceEntry) (err : String)
    (lat lon : Option String) (methodName : String) : CascadeOut :=
  let succ := pyTruthy lat && pyTruthy lon
  ⟨trace, err, succ, if succ && methodName ≠ "" then methodName else "none", lat, lon⟩

/-- `f"missing_required_tags:{','.join(missing)}"`. -/
def missingReason (tags : List (String × String)) : String :=
  "missing_required_tags:" ++
    String.intercalate "," ((tags.filter fun p => p.2 = "").map Prod.fst)

/-- Strategy 3 (+ TIGER fallback) of the cascade: fuzzy street in zip.
`primaryError` threads the `primary_error` local, `selfError` the
`self.error` attribute. -/
def cascadeStage3 (hav : ℚ → ℚ → ℚ → ℚ → ℚ) (fmt : ℚ → String) (t : Tags)
    (h3 : HttpResult) (pc : PcResult) (fz : Option (String × Int)) (db : DbResult)
    (trace : List TraceEntry) (primaryError selfError : String) : CascadeOut :=
  let et := t.placeName
  let streetValue := buildStreetValue t
  let numberValue := t.addressNumber
  let zipValue := t.zipCode
  if streetValue = "" || zipValue = "" then
    let e := mkSkipEntry "zip_street_match_nsz" "missing_required_tags:StreetName_or_ZipCode"
    let err := if primaryError ≠ "" then primaryError
      else "zip_street_match_nsz, missing street or zip"
    cascadeFinish (trace ++ [e]) err none none ""
  else
    match pc with
    | .err code =>
      let e := mkSkipEntry "zip_street_match_nsz" ("postcode_lookup_error:" ++ code)
      let err := (if primaryError ≠ "" then primaryError else "No result") ++ "; " ++ code
      cascadeFinish (trace ++ [e]) err none none ""
    | .ok _cands =>
      match fz with
      | none =>
        let e := mkSkipEntry "zip_street_match_nsz" "no_fuzzy_match"
        let err := if primaryError ≠ "" then primaryError else "No fuzzy match for road"
        cascadeFinish (trace ++ [e]) err none none ""
      | some (road, _score) =>
        let r3 := requestRun hav h3 zipValue et
        let e3 := mkReqEntry "zip_street_match_nsz" r3
        if r3.ok then cascadeFinish (trace ++ [e3]) "" r3.lat r3.lon "zip_street_match_nsz"
        else
          let selfErr2 := if r3.error ≠ "" then r3.error else selfError
          let tg := tigerRun fmt db zipValue road numberValue
          let e4 : TraceEntry := ⟨"tiger_extrapolate_snap", true, tg.status, tg.ok, tg.error, ""⟩
          if tg.ok then
            cascadeFinish (trace ++ [e3, e4]) "" tg.lat tg.lon "tiger_extrapolate_snap"
          else
            let err := if tg.error ≠ "" then tg.error else selfErr2
            cascadeFinish (trace ++ [e3, e4]) err none none ""

/-- Strategy 2 of the cascade: number+street+city+state. -/
def cascadeStage2 (hav : ℚ → ℚ → ℚ → ℚ → ℚ) (fmt : ℚ → String) (t : Tags)
    (h2 h3 : HttpResult) (pc : PcResult) (fz : Option (String × Int)) (db : DbResult)
    (trace : List TraceEntry) (primaryError selfError : String) : CascadeOut :=
  let et := t.placeName
  let ez := t.zipCode
  if t.streetName ≠ "" && t.placeName ≠ "" && t.stateName ≠ "" then
    let r2 := requestRun hav h2 ez et
    let e2 := mkReqEntry "etags_nscs" r2
    if r2.ok then cascadeFinish (trace ++ [e2]) "" r2.lat r2.lon "etags_nscs"
    else cascadeStage3 hav fmt t h3 pc fz db (trace ++ [e2]) r2.error r2.error
  else
    let e2 := mkSkipEntry "etags_nscs"
      (missingReason [("StreetName", t.streetName), ("PlaceName", t.placeName),
        ("StateName", t.stateName)])
    cascadeStage3 hav fmt t h3 pc fz db (trace ++ [e2]) primaryError selfError

/-- The strategy cascade of `search` (after tagging): strategy 1
(number+street+zip), strategy 2 (number+street+city+state), strategy 3
(fuzzy street in zip) and the TIGER fallback, in source order with the
source's skip conditions and error threading. -/
def cascadeSearch (hav : ℚ → ℚ → ℚ → ℚ → ℚ) (fmt : ℚ → String) (t : Tags)
    (h1 h2 h3 : HttpResult) (pc : PcResult) (fz : Option (String × Int))
    (db : DbResult) : CascadeOut :=
  let et := t.placeName
  let ez := t.zipCode
  if t.streetName ≠ "" && t.zipCode ≠ "" then
    let r1 := requestRun hav h1 ez et
    let e1 := mkReqEntry "etags_nsz" r1
    if r1.ok then cascadeFinish [e1] "" r1.lat r1.lon "etags_nsz"
    else cascadeStage2 hav fmt t h2 h3 pc fz db [e1] r1.error r1.error
  else
    let e1 := mkSkipEntry "etags_nsz"
      (missingReason [("StreetName", t.streetName), ("ZipCode", t.zipCode)])
    cascadeStage2 hav fmt t h2 h3 pc fz db [e1] "" ""

/-! ### `ResolutionCache`: `_normalize_cache_key`,
`_save_address_cache_entry`, `_apply_cached_result`, and the cache path of
`search` -/
/-- `_normalize_cache_key`: strip, casefold, collapse inner whitespace to
single spaces, trim edge spaces/commas. -/
def normalizeCacheKey (s : String) : String :=
  String.mk (pyStripSet [' ', ',']
    (List.intercalate [' '] (splitRuns (fun c => !isSpaceCh c) (lowerL (pyStrip s.data)))))

/-- One persisted cache row (the display fields; the serialized metadata
columns are not needed by the claims about cached results). -/
structure CacheRow where
  addressRaw : String
  addressGeocode : String
  addressNominatim : String
  latitude : String
  longitude : String
  method : String
  error : String
deriving Repr, DecidableEq

/-- The `ResolutionResult` fields produced by one resolution. -/
structure ResFields where
  latitude : Option String
  longitude : Option String
  nominatimAddress : String
  query : String
  method : String
  error : String
deriving Repr, DecidableEq

/-- `_save_address_cache_entry`'s row construction (Python `x or ""` /
`x or raw`). -/
def saveCacheRow (raw : String) (f : ResFields) : CacheRow :=
  ⟨raw, (if f.query ≠ "" then f.query else raw), f.nominatimAddress,
   f.latitude.getD "", f.longitude.getD "", f.method, f.error⟩

/-- `_apply_cached_result`'s field extraction: latitude/longitude are
stripped and empties map back to `None`; the other fields are taken
verbatim. -/
def applyCachedResult (raw : String) (row : CacheRow) : ResFields :=
  let lat := pyStrip row.latitude.data
  let lon := pyStrip row.longitude.data
  ⟨(if lat ≠ [] then some (String.mk lat) else none),
   (if lon ≠ [] then some (String.mk lon) else none),
   row.addressNominatim,
   (if row.addressGeocode ≠ "" then row.addressGeocode else raw),
   row.method, row.error⟩

/-- Result of one `search` call in the cache model: the returned fields,
the cache map afterwards, and how many times the external resolution
(search service / database work) ran. -/
structure CacheSearchOut where
  fields : ResFields
  cache : List (String × CacheRow)
  externalCalls : Nat
deriving Repr, DecidableEq

/-- The cache path of `search`: strip, bad-address rewrite, cache lookup
keyed by `_normalize_cache_key`, and on a miss the external resolution
(abstracted as `resolve`) followed by `_save_address_cache_entry` under
the same key.  A cache hit performs no external work. -/
def searchWithCache (resolve : String → ResFields) (badLookup : String → Option String)
    (useCache saveCache : Bool) (cache : List (String × CacheRow)) (raw : String) :
    CacheSearchOut :=
  let raw1 := String.mk (pyStrip raw.data)
  if raw1 = "" then ⟨⟨none, none, "", "", "", "Empty address"⟩, cache, 0⟩
  else
    let raw2 := match badLookup (normalizeCacheKey raw1) with
      | some upd => upd
      | none => raw1
    match (if useCache then cache.lookup (normalizeCacheKey raw2) else none) with
    | some row => ⟨applyCachedResult raw2 row, cache, 0⟩
    | none =>
      let f := resolve raw2
      if saveCache then ⟨f, (normalizeCacheKey raw2, saveCacheRow raw2 f) :: cache, 1⟩
      else ⟨f, cache, 1⟩

/-- Within-range fractional position (clamp is the identity in range). -/
def tigerFrac (h : Int) (r : ValidRow) : ℚ :=
  if r.rangeSpan > 0 then ((h : ℚ) - (r.lowNum : ℚ)) / (r.rangeSpan : ℚ) else 1 / 2

/-- The §8 example segment: low=100, high=200, low endpoint (0,0), high
endpoint (0,1). -/
def exampleSegment : TigerRow :=
  { startnumberText := some "100", endnumberText := some "200", stepText := none,
    startLat := some 0, startLon := some 0, endLat := some 0, endLon := some 1 }

/-- The normalized `ValidRow` of `exampleSegment` for house number 150. -/
def exampleValidRow : ValidRow :=
  ⟨0, 100, 200, none, 100, 200, 0, 0, 0, 1, true, 100,
    (((100 : Int) : ℚ) + ((200 : Int) : ℚ)) / 2⟩

/-- TIGER row with inverted numbering and mixed endpoint parity:
`startnumber = 201`, `endnumber = 100`, `step = 2`. -/
def c6row : TigerRow :=
  { startnumberText := some "201", endnumberText := some "100", stepText := some "2",
    startLat := some 1, startLon := some 1, endLat := some 0, endLon := some 0 }

/-! ### `_parse_address` AddressNumber cleanup (lines 589-605) -/
/-- The tag slots read and written by the AddressNumber cleanup step of
`_parse_address` (`None` = key absent from `address_tags_raw`). -/
structure RawTags where
  addressNumber : Option String := none
  occupancyType : Option String := none
  occupancyIdentifier : Option String := none
  subaddressType : Option String := none
  subaddressIdentifier : Option String := none
deriving Repr, DecidableEq

/-- Python `str.isdigit` for ASCII: nonempty and all digits. -/
def pyIsDigitStr (s : String) : Bool :=
  s ≠ "" && s.data.all isDigitCh

/-- The AddressNumber cleanup: when the tag value is not all-digits, keep
the digit characters as AddressNumber and move the non-digit remainder to
OccupancyIdentifier when OccupancyType is absent, else to
SubaddressIdentifier when SubaddressType is absent, else drop it; the
second component is the `fix_address_number_non_numeric` flag. -/
def fixAddressNumber (t : RawTags) : RawTags × Bool :=
  match t.addressNumber with
  | none => (t, false)
  | some an =>
    if pyIsDigitStr an then (t, false)
    else
      let digits := String.mk (an.data.filter isDigitCh)
      let nond := String.mk (an.data.filter fun c => !isDigitCh c)
      let t1 := { t with addressNumber := some digits }
      if t.occupancyType = none then
        ({ t1 with occupancyType := some "Unit", occupancyIdentifier := some nond }, true)
      else if t.subaddressType = none then
        ({ t1 with subaddressType := some "Unit", subaddressIdentifier := some nond }, true)
      else (t1, true)

/-- Tags with a non-digit AddressNumber and an already-occupied
OccupancyIdentifier (but no OccupancyType). -/
def c10tags : RawTags :=
  { addressNumber := some "123A", occupancyIdentifier := some "B" }

/-- A coordinate field in the normal form actually produced by the search
service and the TIGER formatter: no surrounding whitespace and nonempty. -/
def wfCoord (o : Option String) : Prop :=
  ∀ s, o = some s → (pyStrip s.data = s.data ∧ s ≠ "")

/-- Resolution oracle returning fixed well-formed fields. -/
def c4resolve : String → ResFields :=
  fun _ => ⟨some "41.5", some "-71.3", "display", "query", "etags_nsz", ""⟩

/-- The fixed strategy order of the cascade. -/
def fixedStrategyNames : List String :=
  ["etags_nsz", "etags_nscs", "zip_street_match_nsz", "tiger_extrapolate_snap"]

/-- Five consecutive digit characters occur somewhere in the list (the
condition for the ZIP-5 regex to have any match position). -/
def hasFiveDigitRun : List Char → Bool
  | d1 :: d2 :: d3 :: d4 :: d5 :: rest =>
    ([d1, d2, d3, d4, d5].all isDigitCh) || hasFiveDigitRun (d2 :: d3 :: d4 :: d5 :: rest)
  | _ => false

/-- Spec-side model of the punctuation cleanup the specification promises
on the no-match path: repeated whitespace and repeated commas collapsed,
edge punctuation trimmed.  (Defined from the specification's wording, to be
compared with what `repair_zip_ri_ma` actually returns.) -/
def collapseRun (prev : Option Char) : List Char → List Char
  | [] => []
  | c :: rest =>
    if (isSpaceCh c && prev.elim false isSpaceCh) || (c = ',' && prev = some ',') then
      collapseRun (some c) rest
    else c :: collapseRun (some c) rest

/-- Spec-side punctuation cleanup of a whole string. -/
def punctuationCleanup (s : String) : String :=
  String.mk (pyStripSet [' ', ',', ';'] (collapseRun none s.data))

theorem reasons_isEmpty_iff (hav : ℚ → ℚ → ℚ → ℚ → ℚ) (res : Candidate)
    (ez et es : String) (cfg : SimpleCfg) :
    (nominatimResultCheck hav res ez et es cfg).accepted = true ↔
      (nominatimResultCheck hav res ez et es cfg).reasons = [] := by
  simp [nominatimResultCheck]

theorem mem_reasons_mismatch (hav : ℚ → ℚ → ℚ → ℚ → ℚ) (res : Candidate)
    (ez et es : String) (cfg : SimpleCfg) :
    "ZIP_OR_CITY_STATE_MISMATCH" ∈ (nominatimResultCheck hav res ez et es cfg).reasons ↔
      (zipMatchB ez res || (townMatchB et res && stateMatchB es res)) = false := by
  cases hpr : res.placeRank <;>
    cases hbd : bboxMaxDimM hav res.boundingbox <;>
      simp [nominatimResultCheck, hpr, hbd] <;> split_ifs <;> simp_all

/-- C1: `nominatim_result_check` reports no ZIP_OR_CITY_STATE_MISMATCH
reason exactly when the normalized expected ZIP matches the candidate's
postcode ZIP, or both the town and the state match; and a mismatch reason
forces rejection. -/
theorem claim_C1 (hav : ℚ → ℚ → ℚ → ℚ → ℚ) (res : Candidate)
    (ez et es : String) (cfg : SimpleCfg) :
    ("ZIP_OR_CITY_STATE_MISMATCH" ∉ (nominatimResultCheck hav res ez et es cfg).reasons ↔
      (zipMatchB ez res = true ∨ (townMatchB et res = true ∧ stateMatchB es res = true))) ∧
    ("ZIP_OR_CITY_STATE_MISMATCH" ∈ (nominatimResultCheck hav res ez et es cfg).reasons →
      (nominatimResultCheck hav res ez et es cfg).accepted = false) := by
  constructor
  · rw [not_iff_comm, mem_reasons_mismatch]
    simp [not_or, Bool.or_eq_false_iff, Bool.and_eq_false_iff]
  · intro hm
    rw [← Bool.not_eq_true, reasons_isEmpty_iff]
    intro he
    rw [he] at hm
    exact absurd hm (List.not_mem_nil _)

theorem stateMatchB_empty (res : Candidate) : stateMatchB "" res = false := by
  have h0 : normalizeStateS "" = "" := rfl
  simp [stateMatchB, h0]

theorem requestCheck_accepted_imp_zip (hav : ℚ → ℚ → ℚ → ℚ → ℚ) (res : Candidate)
    (ez et : String) (hacc : (requestCheck hav res ez et).accepted = true) :
    normalizeZip5S ez ≠ "" ∧ normalizeZip5 res.addrPostcode = normalizeZip5S ez := by
  have hrc : requestCheck hav res ez et = nominatimResultCheck hav res ez et "" defaultCfg := rfl
  rw [hrc] at hacc
  have hre := (reasons_isEmpty_iff hav res ez et "" defaultCfg).1 hacc
  have hmem : "ZIP_OR_CITY_STATE_MISMATCH" ∉ (nominatimResultCheck hav res ez et "" defaultCfg).reasons := by
    rw [hre]; exact List.not_mem_nil _
  have hloc : (zipMatchB ez res || (townMatchB et res && stateMatchB "" res)) = true := by
    by_contra hh
    exact hmem ((mem_reasons_mismatch hav res ez et "" defaultCfg).2 (by revert hh; simp))
  rw [stateMatchB_empty] at hloc
  simp only [Bool.and_false, Bool.or_false] at hloc
  simp only [zipMatchB, Bool.and_eq_true, decide_eq_true_eq, Bool.not_eq_true',
    decide_eq_false_iff_not] at hloc
  exact ⟨hloc.1.1, hloc.2.symm⟩

/-- C2: `_request` calls the validator with an empty `expected_state`
(so the state comparison never succeeds), an accepted candidate therefore
has a postcode whose normalized ZIP equals the normalized expected ZIP,
and a request whose expected ZIP normalizes to the empty string can never
return an accepted result. -/
theorem claim_C2 :
    (∀ (hav : ℚ → ℚ → ℚ → ℚ → ℚ) (res : Candidate) (ez et : String),
      requestCheck hav res ez et = nominatimResultCheck hav res ez et "" ∧
      (requestCheck hav res ez et).stateMatch = false) ∧
    (∀ (hav : ℚ → ℚ → ℚ → ℚ → ℚ) (res : Candidate) (ez et : String),
      (requestCheck hav res ez et).accepted = true →
        normalizeZip5 res.addrPostcode = normalizeZip5S ez ∧ normalizeZip5S ez ≠ "") ∧
    (∀ (hav : ℚ → ℚ → ℚ → ℚ → ℚ) (http : HttpResult) (ez et : String),
      normalizeZip5S ez = "" → (requestRun hav http ez et).ok = false) := by
  refine ⟨fun hav res ez et => ⟨rfl, ?_⟩, fun hav res ez et hacc => ?_, fun hav http ez et hez => ?_⟩
  · simp [requestCheck, nominatimResultCheck, stateMatchB_empty]
  · have h := requestCheck_accepted_imp_zip hav res ez et hacc
    exact ⟨h.2, h.1⟩
  · have hacc : ∀ c : Candidate, (requestCheck hav c ez et).accepted = false := by
      intro c
      by_contra hh
      rw [Bool.not_eq_false] at hh
      exact (requestCheck_accepted_imp_zip hav c ez et hh).1 hez
    have hfa : ∀ (i : Nat) (l : List Candidate), firstAcceptedAux hav ez et i l = none := by
      intro i l
      induction l generalizing i with
      | nil => rfl
      | cons c cs ih => simp [firstAcceptedAux, hacc c, ih]
    cases http with
    | timeout => rfl
    | reqError m => rfl
    | ok data =>
      cases data with
      | nil => rfl
      | cons c cs => simp [requestRun, hfa]

/-- C9: the validator's bounding-box checks — TOO_LONG_FEATURE is
reported exactly when the box's maximal edge exceeds `max_linear_m`,
MISSING_BBOX exactly when no usable box dimension exists, either reason
forces rejection, the maximal dimension is the larger of the west-edge
height and the mid-latitude width, and the default threshold is
1609.34 m (one mile). -/
theorem claim_C9 (hav : ℚ → ℚ → ℚ → ℚ → ℚ) (res : Candidate)
    (ez et es : String) (cfg : SimpleCfg) :
    ("TOO_LONG_FEATURE" ∈ (nominatimResultCheck hav res ez et es cfg).reasons ↔
      ∃ d, bboxMaxDimM hav res.boundingbox = some d ∧ d > cfg.maxLinearM) ∧
    ("MISSING_BBOX" ∈ (nominatimResultCheck hav res ez et es cfg).reasons ↔
      bboxMaxDimM hav res.boundingbox = none) ∧
    (("TOO_LONG_FEATURE" ∈ (nominatimResultCheck hav res ez et es cfg).reasons ∨
      "MISSING_BBOX" ∈ (nominatimResultCheck hav res ez et es cfg).reasons) →
      (nominatimResultCheck hav res ez et es cfg).accepted = false) ∧
    (∀ sLat nLat wLon eLon : ℚ,
      bboxMaxDimM hav (some [some sLat, some nLat, some wLon, some eLon]) =
        some (max (hav sLat wLon nLat wLon)
          (hav ((sLat + nLat) / 2) wLon ((sLat + nLat) / 2) eLon))) ∧
    defaultCfg.maxLinearM = 160934 / 100 := by
  refine ⟨?_, ?_, ?_, fun sLat nLat wLon eLon => rfl, rfl⟩
  · cases hpr : res.placeRank <;>
      cases hbd : bboxMaxDimM hav res.boundingbox <;>
        simp [nominatimResultCheck, hpr, hbd] <;> split_ifs <;> simp_all
  · cases hpr : res.placeRank <;>
      cases hbd : bboxMaxDimM hav res.boundingbox <;>
        simp [nominatimResultCheck, hpr, hbd] <;> split_ifs <;> simp_all
  · intro hm
    rw [← Bool.not_eq_true, reasons_isEmpty_iff]
    intro he
    rw [he] at hm
    simp at hm

theorem keyLtIQ_trans (a b c : Int × ℚ) (hab : keyLtIQ a b = true)
    (hbc : keyLtIQ b c = true) : keyLtIQ a c = true := by
  simp only [keyLtIQ, Bool.or_eq_true, Bool.and_eq_true, decide_eq_true_eq,
    beq_iff_eq] at *
  rcases hab with h | ⟨h1, h2⟩ <;> rcases hbc with g | ⟨g1, g2⟩
  · left; omega
  · left; omega
  · left; omega
  · right; exact ⟨h1.trans g1, h2.trans g2⟩

theorem keyLtIQ_negTrans (a b c : Int × ℚ) (hab : keyLtIQ a b = false)
    (hbc : keyLtIQ b c = false) : keyLtIQ a c = false := by
  simp only [keyLtIQ, Bool.or_eq_false_iff, Bool.and_eq_false_iff,
    decide_eq_false_iff_not, beq_eq_false_iff_ne, ne_eq, not_lt] at *
  obtain ⟨hab1, hab2⟩ := hab
  obtain ⟨hbc1, hbc2⟩ := hbc
  constructor
  · omega
  · rcases hab2 with h | h <;> rcases hbc2 with g | g
    · omega
    · omega
    · omega
    · by_cases hac : a.1 = c.1
      · right
        calc c.2 ≤ b.2 := g
          _ ≤ a.2 := h
      · left; exact hac

theorem keyLtIQ_irrefl (a : Int × ℚ) : keyLtIQ a a = false := by
  simp [keyLtIQ]

theorem pyMinBy_mem {α κ : Type} (ltb : κ → κ → Bool) (key : α → κ)
    (b : α) (l : List α) : pyMinBy ltb key b l ∈ b :: l := by
  induction l generalizing b with
  | nil => simp [pyMinBy]
  | cons x xs ih =>
    by_cases hc : ltb (key x) (key b)
    · have hstep : pyMinBy ltb key b (x :: xs) = pyMinBy ltb key x xs := by
        simp [pyMinBy, hc]
      rw [hstep]
      rcases List.mem_cons.1 (ih x) with h1 | h2
      · rw [h1]; exact List.mem_cons_of_mem b (List.mem_cons_self x xs)
      · exact List.mem_cons_of_mem b (List.mem_cons_of_mem x h2)
    · have hstep : pyMinBy ltb key b (x :: xs) = pyMinBy ltb key b xs := by
        simp [pyMinBy, hc]
      rw [hstep]
      rcases List.mem_cons.1 (ih b) with h1 | h2
      · rw [h1]; exact List.mem_cons_self b (x :: xs)
      · exact List.mem_cons_of_mem b (List.mem_cons_of_mem x h2)

theorem pyMinBy_min {α κ : Type} (ltb : κ → κ → Bool) (key : α → κ)
    (htr : ∀ a b c, ltb a b = true → ltb b c = true → ltb a c = true)
    (hneg : ∀ a b c, ltb a b = false → ltb b c = false → ltb a c = false)
    (hirr : ∀ a, ltb a a = false)
    (b : α) (l : List α) :
    ∀ y ∈ b :: l, ltb (key y) (key (pyMinBy ltb key b l)) = false := by
  induction l generalizing b with
  | nil =>
    intro y hy
    simp at hy
    subst hy
    simp [pyMinBy, hirr]
  | cons x xs ih =>
    intro y hy
    by_cases hc : ltb (key x) (key b)
    · have hstep : pyMinBy ltb key b (x :: xs) = pyMinBy ltb key x xs := by
        simp [pyMinBy, hc]
      rw [hstep]
      have hall := ih x
      rcases List.mem_cons.1 hy with hyb | hy2
      · rw [hyb]
        by_contra hcon
        rw [Bool.not_eq_false] at hcon
        have hx := hall x (List.mem_cons_self x xs)
        exact absurd (htr _ _ _ hc hcon) (by rw [hx]; simp)
      · rcases List.mem_cons.1 hy2 with hyx | hyxs
        · rw [hyx]; exact hall x (List.mem_cons_self x xs)
        · exact hall y (List.mem_cons_of_mem x hyxs)
    · have hstep : pyMinBy ltb key b (x :: xs) = pyMinBy ltb key b xs := by
        simp [pyMinBy, hc]
      rw [hstep]
      have hall := ih b
      rcases List.mem_cons.1 hy with hyb | hy2
      · rw [hyb]; exact hall b (List.mem_cons_self b xs)
      · rcases List.mem_cons.1 hy2 with hyx | hyxs
        · rw [hyx]
          have hb := hall b (List.mem_cons_self b xs)
          exact hneg _ _ _ (by rwa [Bool.not_eq_true] at hc) hb
        · exact hall y (List.mem_cons_of_mem b hyxs)

/-- C5: when candidate TIGER ranges contain the house number, the best
in-range row (first minimal selection key: parity mismatch, then distance
to the range midpoint) is interpolated at the clamped fractional position
of the house number inside the range; on the §8 example segment
(100-200, endpoints (0,0)-(0,1)) house number 150 yields fraction 0.5 and
location latitude 0, longitude 0.5. -/
theorem claim_C5 :
    (∀ (h : Int) (vs : List ValidRow),
      (∀ r ∈ vs, r.rangeSpan = r.highNum - r.lowNum) →
      ∀ r0 rs, insideRows h vs = r0 :: rs →
      ∃ best,
        best ∈ insideRows h vs ∧
        best.parityOk = true ∧ best.lowNum ≤ h ∧ h ≤ best.highNum ∧
        (∀ r ∈ insideRows h vs, keyLtIQ (selKey h r) (selKey h best) = false) ∧
        tigerLocate h vs = some ⟨"extrapolated",
          lerpQ best.lowLat best.highLat (tigerFrac h best),
          lerpQ best.lowLon best.highLon (tigerFrac h best), [best.index]⟩) ∧
    tigerLocate 150 (validRowsOf 150 [exampleSegment]) =
      some ⟨"extrapolated", 0, 1 / 2, [0]⟩ := by
  constructor
  · intro h vs hwf r0 rs hin
    have hmem : pyMinBy keyLtIQ (selKey h) r0 rs ∈ insideRows h vs := by
      rw [hin]; exact pyMinBy_mem _ _ r0 rs
    have hcond := List.of_mem_filter hmem
    simp only [Bool.and_eq_true, decide_eq_true_eq] at hcond
    obtain ⟨⟨hpar, hlow⟩, hhigh⟩ := hcond
    have hmemvs : pyMinBy keyLtIQ (selKey h) r0 rs ∈ vs := List.mem_of_mem_filter hmem
    refine ⟨pyMinBy keyLtIQ (selKey h) r0 rs, hmem, hpar, hlow, hhigh, ?_, ?_⟩
    · rw [hin]
      exact pyMinBy_min keyLtIQ (selKey h) keyLtIQ_trans keyLtIQ_negTrans keyLtIQ_irrefl r0 rs
    · have hspan := hwf _ hmemvs
      have hclamp : clamp01 (if (pyMinBy keyLtIQ (selKey h) r0 rs).rangeSpan > 0 then
          ((h : ℚ) - ((pyMinBy keyLtIQ (selKey h) r0 rs).lowNum : ℚ)) /
            ((pyMinBy keyLtIQ (selKey h) r0 rs).rangeSpan : ℚ)
          else 1 / 2) = tigerFrac h (pyMinBy keyLtIQ (selKey h) r0 rs) := by
        set best := pyMinBy keyLtIQ (selKey h) r0 rs with hbest
        by_cases hgt : best.rangeSpan > 0
        · simp only [tigerFrac, hgt, if_true]
          have h0 : (0 : ℚ) ≤ ((h : ℚ) - (best.lowNum : ℚ)) / ((best.rangeSpan : ℚ)) := by
            apply div_nonneg
            · simp only [sub_nonneg]
              exact_mod_cast hlow
            · exact_mod_cast le_of_lt hgt
          have h1 : ((h : ℚ) - (best.lowNum : ℚ)) / ((best.rangeSpan : ℚ)) ≤ 1 := by
            rw [div_le_one (by exact_mod_cast hgt)]
            rw [hspan]
            push_cast
            have hc2 : (h : ℚ) ≤ (best.highNum : ℚ) := by exact_mod_cast hhigh
            linarith
          simp only [clamp01]
          rw [min_eq_right h1, max_eq_right h0]
        · simp only [tigerFrac, hgt, if_false]
          simp [clamp01]
          norm_num
      simp only [tigerLocate, hin]
      rw [← hclamp]
  · have h1 : validRowsOf 150 [exampleSegment] =
        [⟨0, 100, 200, none, 100, 200, 0, 0, 0, 1, true, 100,
          (((100 : Int) : ℚ) + ((200 : Int) : ℚ)) / 2⟩] := rfl
    have h2 : insideRows 150 [(⟨0, 100, 200, none, 100, 200, 0, 0, 0, 1, true, 100,
        (((100 : Int) : ℚ) + ((200 : Int) : ℚ)) / 2⟩ : ValidRow)] =
        [⟨0, 100, 200, none, 100, 200, 0, 0, 0, 1, true, 100,
          (((100 : Int) : ℚ) + ((200 : Int) : ℚ)) / 2⟩] := rfl
    rw [h1]
    simp only [tigerLocate, h2, pyMinBy]
    have hfrac : clamp01 (if ((100 : Int) > 0) then
        ((150 : ℚ) - ((100 : Int) : ℚ)) / (((100 : Int)) : ℚ) else 1 / 2) = 1 / 2 := by
      norm_num [clamp01]
    norm_num [clamp01, lerpQ]

theorem claim_C5_witness :
    ∃ best,
      best ∈ insideRows 150 (validRowsOf 150 [exampleSegment]) ∧
      best.parityOk = true ∧ best.lowNum ≤ 150 ∧ (150 : Int) ≤ best.highNum ∧
      (∀ r ∈ insideRows 150 (validRowsOf 150 [exampleSegment]),
        keyLtIQ (selKey 150 r) (selKey 150 best) = false) ∧
      tigerLocate 150 (validRowsOf 150 [exampleSegment]) = some ⟨"extrapolated",
        lerpQ best.lowLat best.highLat (tigerFrac 150 best),
        lerpQ best.lowLon best.highLon (tigerFrac 150 best), [best.index]⟩ :=
  claim_C5.1 150 (validRowsOf 150 [exampleSegment])
    (by
      intro r hr
      rw [show validRowsOf 150 [exampleSegment] = [exampleValidRow] from rfl,
        List.mem_singleton] at hr
      rw [hr]
      rfl)
    exampleValidRow [] rfl

/-- C6 (counterexample): the claim fails as stated.  With
`startnumber = 201`, `endnumber = 100`, `step = 2` and house number 101,
the code accepts the parity (101 and 201 are both odd) although
`101 % 2 ≠ (min 201 100) % 2 = 0`: parity is compared against
`startnumber`, not against the low end of the range. -/
theorem claim_C6_counterexample :
    tigerParityOk 101 201 (some 2) = true ∧
    ¬((101 : Int) % 2 = (min (201 : Int) (100 : Int)) % 2) ∧
    ((mkValidRow 101 0 c6row).map ValidRow.parityOk) = some true := by
  refine ⟨rfl, by omega, rfl⟩

/-- C6 (amended): with step 2 the parity filter compares the house
number's parity with `startnumber`'s parity (not the low end's); any
other step value disables the filter; the start-parity rule agrees with
the claimed low-end rule exactly when `startnumber ≤ endnumber` or the
two endpoints share parity; and each validated row records the parity
computed from its `startnumber`. -/
theorem claim_C6_amended :
    (∀ (h s : Int) (step : Option Int), step = some 2 →
      (tigerParityOk h s step = true ↔ h % 2 = s % 2)) ∧
    (∀ (h s : Int) (step : Option Int), step ≠ some 2 → tigerParityOk h s step = true) ∧
    (∀ (h s e : Int), s ≤ e ∨ s % 2 = e % 2 →
      (tigerParityOk h s (some 2) = true ↔ h % 2 = (min s e) % 2)) ∧
    (∀ (hn : Int) (idx : Nat) (r : TigerRow) (v : ValidRow),
      mkValidRow hn idx r = some v → v.parityOk = tigerParityOk hn v.startNum v.stepNum) := by
  refine ⟨?_, ?_, ?_, ?_⟩
  · intro h s step hstep
    subst hstep
    simp [tigerParityOk]
  · intro h s step hstep
    simp [tigerParityOk, hstep]
  · intro h s e hse
    simp only [tigerParityOk, beq_self_eq_true, if_true, beq_iff_eq]
    constructor <;> intro hh <;> omega
  · intro hn idx r v hv
    unfold mkValidRow at hv
    split at hv
    · rw [Option.some_inj] at hv
      subst hv
      rfl
    · exact absurd hv (by simp)

theorem claim_C6_amended_witness :
    tigerParityOk 101 201 (some 2) = true ∧ tigerParityOk 7 4 none = true :=
  ⟨(claim_C6_amended.1 101 201 (some 2) rfl).2 (by decide),
   claim_C6_amended.2.1 7 4 none (by simp)⟩

/-- C10 (counterexample): the claim fails as stated.  For tags
`AddressNumber = "123A"`, `OccupancyIdentifier = "B"` (no OccupancyType),
the cleanup moves `"A"` into OccupancyIdentifier, overwriting the
existing `"B"` instead of preserving it — occupied slots are not
skipped. -/
theorem claim_C10_counterexample :
    fixAddressNumber c10tags =
      (⟨some "123", some "Unit", some "A", none, none⟩, true) ∧
    (fixAddressNumber c10tags).1.subaddressIdentifier = none ∧
    (fixAddressNumber c10tags).1.occupancyIdentifier ≠ c10tags.occupancyIdentifier := by
  refine ⟨rfl, rfl, by decide⟩

/-- C10 (amended): after the AddressNumber cleanup the AddressNumber is
all digits whenever present.  A non-digit AddressNumber is reduced to its
digit characters and the remainder goes to OccupancyType/Identifier when
no OccupancyType exists (overwriting any OccupancyIdentifier), else to
SubaddressType/Identifier when no SubaddressType exists, and is dropped
entirely when both types are present; digit-only or absent AddressNumbers
leave the tags unchanged. -/
theorem claim_C10_amended (t : RawTags) :
    (∀ s, (fixAddressNumber t).1.addressNumber = some s → s.data.all isDigitCh = true) ∧
    (∀ an, t.addressNumber = some an → pyIsDigitStr an = false →
      (fixAddressNumber t).2 = true ∧
      (fixAddressNumber t).1.addressNumber = some (String.mk (an.data.filter isDigitCh)) ∧
      (t.occupancyType = none →
        (fixAddressNumber t).1.occupancyType = some "Unit" ∧
        (fixAddressNumber t).1.occupancyIdentifier =
          some (String.mk (an.data.filter fun c => !isDigitCh c))) ∧
      (t.occupancyType ≠ none → t.subaddressType = none →
        (fixAddressNumber t).1.subaddressType = some "Unit" ∧
        (fixAddressNumber t).1.subaddressIdentifier =
          some (String.mk (an.data.filter fun c => !isDigitCh c))) ∧
      (t.occupancyType ≠ none → t.subaddressType ≠ none →
        (fixAddressNumber t).1 = { t with addressNumber := some (String.mk (an.data.filter isDigitCh)) })) ∧
    (t.addressNumber = none → fixAddressNumber t = (t, false)) ∧
    (∀ an, t.addressNumber = some an → pyIsDigitStr an = true →
      fixAddressNumber t = (t, false)) := by
  refine ⟨?_, ?_, ?_, ?_⟩
  · intro s hs
    cases han : t.addressNumber with
    | none =>
      simp only [fixAddressNumber, han] at hs
      simp [han] at hs
    | some an =>
      simp only [fixAddressNumber, han] at hs
      by_cases hdig : pyIsDigitStr an
      · rw [if_pos hdig] at hs
        simp [han] at hs
        subst hs
        simp only [pyIsDigitStr, Bool.and_eq_true] at hdig
        exact hdig.2
      · have hall : (an.data.filter isDigitCh).all isDigitCh = true := by
          simp only [List.all_eq_true]
          intro c hc
          exact (List.mem_filter.1 hc).2
        rw [if_neg hdig] at hs
        by_cases hocc : t.occupancyType = none
        · rw [if_pos hocc] at hs
          simp at hs
          subst hs
          exact hall
        · rw [if_neg hocc] at hs
          by_cases hsub : t.subaddressType = none
          · rw [if_pos hsub] at hs
            simp at hs
            subst hs
            exact hall
          · rw [if_neg hsub] at hs
            simp at hs
            subst hs
            exact hall
  · intro an han hdig
    simp only [fixAddressNumber, han]
    simp only [hdig, Bool.false_eq_true, if_false]
    by_cases hocc : t.occupancyType = none
    · rw [if_pos hocc]
      refine ⟨rfl, rfl, fun _ => ⟨rfl, rfl⟩, fun hc _ => absurd hocc hc, fun hc _ => absurd hocc hc⟩
    · rw [if_neg hocc]
      by_cases hsub : t.subaddressType = none
      · rw [if_pos hsub]
        refine ⟨rfl, rfl, fun hc => absurd hc hocc, fun _ _ => ⟨rfl, rfl⟩, fun _ hc => absurd hsub hc⟩
      · rw [if_neg hsub]
        refine ⟨rfl, rfl, fun hc => absurd hc hocc, fun _ hc => absurd hc hsub, fun _ _ => rfl⟩
  · intro han
    simp only [fixAddressNumber, han]
  · intro an han hdig
    simp only [fixAddressNumber, han]
    simp [hdig]

theorem claim_C10_amended_witness :
    (fixAddressNumber c10tags).2 = true ∧
    (fixAddressNumber c10tags).1.addressNumber = some "123" := by
  have h := (claim_C10_amended c10tags).2.1 "123A" rfl (by decide)
  exact ⟨h.1, h.2.1⟩

theorem stringMk_data (s : String) : String.mk s.data = s := rfl

theorem data_ne_nil_of_ne_empty {s : String} (h : s ≠ "") : s.data ≠ [] := by
  intro hd
  exact h (String.ext (by rw [hd]))

theorem applyCached_roundtrip (raw : String) (f : ResFields)
    (hlat : wfCoord f.latitude) (hlon : wfCoord f.longitude) :
    (applyCachedResult raw (saveCacheRow raw f)).latitude = f.latitude ∧
    (applyCachedResult raw (saveCacheRow raw f)).longitude = f.longitude ∧
    (applyCachedResult raw (saveCacheRow raw f)).nominatimAddress = f.nominatimAddress ∧
    (applyCachedResult raw (saveCacheRow raw f)).method = f.method := by
  unfold applyCachedResult saveCacheRow
  refine ⟨?_, ?_, rfl, rfl⟩
  · cases hl : f.latitude with
    | none => simp [hl, pyStrip, pyLStrip, pyRStrip]
    | some s =>
      obtain ⟨hs1, hs2⟩ := hlat s hl
      have hd : s.data ≠ [] := data_ne_nil_of_ne_empty hs2
      simp only [hl, Option.getD]
      rw [hs1]
      simp [hd, stringMk_data]
  · cases hl : f.longitude with
    | none => simp [hl, pyStrip, pyLStrip, pyRStrip]
    | some s =>
      obtain ⟨hs1, hs2⟩ := hlon s hl
      have hd : s.data ≠ [] := data_ne_nil_of_ne_empty hs2
      simp only [hl, Option.getD]
      rw [hs1]
      simp [hd, stringMk_data]

/-- C4: resolving the same raw address twice with caching enabled makes
no second external call, and the cached replay returns the same
latitude, longitude, Nominatim address and method as the original
resolution. -/
theorem claim_C4 (resolve : String → ResFields) (badLookup : String → Option String)
    (cache : List (String × CacheRow)) (raw : String)
    (hlat : ∀ a, wfCoord (resolve a).latitude)
    (hlon : ∀ a, wfCoord (resolve a).longitude)
    (out1 out2 : CacheSearchOut)
    (h1 : out1 = searchWithCache resolve badLookup true true cache raw)
    (h2 : out2 = searchWithCache resolve badLookup true true out1.cache raw) :
    out2.fields.latitude = out1.fields.latitude ∧
    out2.fields.longitude = out1.fields.longitude ∧
    out2.fields.nominatimAddress = out1.fields.nominatimAddress ∧
    out2.fields.method = out1.fields.method ∧
    out2.externalCalls = 0 := by
  subst h1
  subst h2
  unfold searchWithCache
  by_cases hraw : String.mk (pyStrip raw.data) = ""
  · simp [hraw]
  · rw [if_neg hraw]
    cases hbad : badLookup (normalizeCacheKey (String.mk (pyStrip raw.data))) with
    | some upd =>
      simp only [hbad]
      cases hlook : cache.lookup (normalizeCacheKey upd) with
      | some row => simp [hraw, hbad, hlook]
      | none =>
        simp only [hraw, hbad, hlook, if_false, if_true, List.lookup, beq_self_eq_true]
        have hr := applyCached_roundtrip upd (resolve upd) (hlat upd) (hlon upd)
        exact ⟨hr.1, hr.2.1, hr.2.2.1, hr.2.2.2, trivial⟩
    | none =>
      simp only [hbad]
      cases hlook : cache.lookup (normalizeCacheKey (String.mk (pyStrip raw.data))) with
      | some row => simp [hraw, hbad, hlook]
      | none =>
        simp only [hraw, hbad, hlook, if_false, if_true, List.lookup, beq_self_eq_true]
        have hr := applyCached_roundtrip (String.mk (pyStrip raw.data))
          (resolve (String.mk (pyStrip raw.data)))
          (hlat (String.mk (pyStrip raw.data))) (hlon (String.mk (pyStrip raw.data)))
        exact ⟨hr.1, hr.2.1, hr.2.2.1, hr.2.2.2, trivial⟩

theorem claim_C1_witness :
    (nominatimResultCheck (fun _ _ _ _ => 0) {} "02835" "" "" defaultCfg).accepted = false :=
  (claim_C1 (fun _ _ _ _ => 0) {} "02835" "" "" defaultCfg).2 (by decide)

theorem claim_C2_witness :
    (requestRun (fun _ _ _ _ => 0) (.ok [{}]) "" "").ok = false :=
  claim_C2.2.2 (fun _ _ _ _ => 0) (.ok [{}]) "" "" (by decide)

theorem claim_C9_witness :
    (nominatimResultCheck (fun _ _ _ _ => 0) {} "" "" "" defaultCfg).accepted = false :=
  (claim_C9 (fun _ _ _ _ => 0) {} "" "" "" defaultCfg).2.2.1
    (Or.inr ((claim_C9 (fun _ _ _ _ => 0) {} "" "" "" defaultCfg).2.1.mpr rfl))

theorem claim_C4_witness :
    (searchWithCache c4resolve (fun _ => none) true true
        (searchWithCache c4resolve (fun _ => none) true true [] "A St").cache
        "A St").fields.latitude =
      (searchWithCache c4resolve (fun _ => none) true true [] "A St").fields.latitude ∧
    (searchWithCache c4resolve (fun _ => none) true true
        (searchWithCache c4resolve (fun _ => none) true true [] "A St").cache
        "A St").fields.longitude =
      (searchWithCache c4resolve (fun _ => none) true true [] "A St").fields.longitude ∧
    (searchWithCache c4resolve (fun _ => none) true true
        (searchWithCache c4resolve (fun _ => none) true true [] "A St").cache
        "A St").fields.nominatimAddress =
      (searchWithCache c4resolve (fun _ => none) true true [] "A St").fields.nominatimAddress ∧
    (searchWithCache c4resolve (fun _ => none) true true
        (searchWithCache c4resolve (fun _ => none) true true [] "A St").cache
        "A St").fields.method =
      (searchWithCache c4resolve (fun _ => none) true true [] "A St").fields.method ∧
    (searchWithCache c4resolve (fun _ => none) true true
        (searchWithCache c4resolve (fun _ => none) true true [] "A St").cache
        "A St").externalCalls = 0 :=
  claim_C4 c4resolve (fun _ => none) [] "A St"
    (fun _ s hsome => by cases hsome; exact ⟨rfl, by decide⟩)
    (fun _ s hsome => by cases hsome; exact ⟨rfl, by decide⟩)
    _ _ rfl rfl

theorem string_append_ne_empty_left (s t : String) (hs : s ≠ "") : s ++ t ≠ "" := by
  intro h
  apply hs
  have hd : (s ++ t).data = [] := by rw [h]
  rw [String.data_append] at hd
  exact String.ext (List.append_eq_nil.1 hd).1

theorem tigerRun_fail_error (fmt : ℚ → String) (db : DbResult) (z st a : String)
    (h : (tigerRun fmt db z st a).ok = false) : (tigerRun fmt db z st a).error ≠ "" := by
  cases hp : parseHouseNumberInt (some a) with
  | none => simp [tigerRun, hp]
  | some houseNum =>
    simp only [tigerRun, hp] at h ⊢
    cases hzz : (decide (z = "") || decide (st = "")) with
    | true => simp [hzz]
    | false =>
      simp only [hzz, Bool.false_eq_true, if_false] at h ⊢
      cases db with
      | unavailable => simp
      | err m => exact string_append_ne_empty_left _ _ (by decide)
      | rows rs =>
        cases rs with
        | nil => simp
        | cons r rest =>
          simp only at h ⊢
          by_cases hv : validRowsOf houseNum (r :: rest) = []
          · simp [hv]
          · simp only [hv, if_false] at h ⊢
            cases hloc : tigerLocate houseNum (validRowsOf houseNum (r :: rest)) with
            | none => simp [hloc]
            | some sel => rw [hloc] at h; simp at h

theorem cascadeStage3_spec (hav : ℚ → ℚ → ℚ → ℚ → ℚ) (fmt : ℚ → String) (t : Tags)
    (h3 : HttpResult) (pc : PcResult) (fz : Option (String × Int)) (db : DbResult)
    (trace : List TraceEntry) (pe se : String) :
    ∃ tail,
      (cascadeStage3 hav fmt t h3 pc fz db trace pe se).trace = trace ++ tail ∧
      (tail.map TraceEntry.name = ["zip_street_match_nsz"] ∨
        tail.map TraceEntry.name = ["zip_street_match_nsz", "tiger_extrapolate_snap"]) ∧
      (∀ e ∈ tail.dropLast, e.ok = false) ∧
      ((buildStreetValue t = "" ∨ t.zipCode = "") →
        ∃ e, tail = [e] ∧ e.attempted = false ∧ e.status = "skipped") ∧
      ((∀ e ∈ tail, e.ok = false) →
        (cascadeStage3 hav fmt t h3 pc fz db trace pe se).error ≠ "") ∧
      (∀ e, tail.getLast? = some e → e.attempted = true → e.ok = false →
        (cascadeStage3 hav fmt t h3 pc fz db trace pe se).error = e.error) := by
  by_cases hc : buildStreetValue t = "" ∨ t.zipCode = ""
  · have hcb : (decide (buildStreetValue t = "") || decide (t.zipCode = "")) = true := by
      rcases hc with h | h <;> simp [h]
    simp only [cascadeStage3, cascadeFinish, hcb, if_true]
    refine ⟨[mkSkipEntry "zip_street_match_nsz" "missing_required_tags:StreetName_or_ZipCode"],
      rfl, Or.inl rfl, by simp, fun _ => ⟨_, rfl, rfl, rfl⟩, fun _ => ?_, fun e he h1 _ => ?_⟩
    · split_ifs with h
      · exact h
      · decide
    · rw [show ([mkSkipEntry "zip_street_match_nsz"
          "missing_required_tags:StreetName_or_ZipCode"]).getLast? =
          some (mkSkipEntry "zip_street_match_nsz"
            "missing_required_tags:StreetName_or_ZipCode") from rfl,
        Option.some_inj] at he
      rw [← he] at h1
      simp [mkSkipEntry] at h1
  · have hcb : (decide (buildStreetValue t = "") || decide (t.zipCode = "")) = false := by
      push_neg at hc
      simp [hc.1, hc.2]
    rcases pc with code | cands
    · simp only [cascadeStage3, cascadeFinish, hcb, Bool.false_eq_true, if_false]
      refine ⟨[mkSkipEntry "zip_street_match_nsz" ("postcode_lookup_error:" ++ code)],
        rfl, Or.inl rfl, by simp, fun hcon => absurd hcon hc, fun _ => ?_, fun e he h1 _ => ?_⟩
      · split_ifs with h
        · exact string_append_ne_empty_left _ _ (string_append_ne_empty_left _ _ h)
        · exact string_append_ne_empty_left _ _ (string_append_ne_empty_left _ _ (by decide))
      · rw [show ([mkSkipEntry "zip_street_match_nsz"
            ("postcode_lookup_error:" ++ code)]).getLast? =
            some (mkSkipEntry "zip_street_match_nsz" ("postcode_lookup_error:" ++ code)) from rfl,
          Option.some_inj] at he
        rw [← he] at h1
        simp [mkSkipEntry] at h1
    · rcases fz with _ | ⟨road, score⟩
      · simp only [cascadeStage3, cascadeFinish, hcb, Bool.false_eq_true, if_false]
        refine ⟨[mkSkipEntry "zip_street_match_nsz" "no_fuzzy_match"],
          rfl, Or.inl rfl, by simp, fun hcon => absurd hcon hc, fun _ => ?_, fun e he h1 _ => ?_⟩
        · split_ifs with h
          · exact h
          · decide
        · rw [show ([mkSkipEntry "zip_street_match_nsz" "no_fuzzy_match"]).getLast? =
              some (mkSkipEntry "zip_street_match_nsz" "no_fuzzy_match") from rfl,
            Option.some_inj] at he
          rw [← he] at h1
          simp [mkSkipEntry] at h1
      · simp only [cascadeStage3, cascadeFinish, hcb, Bool.false_eq_true, if_false]
        set r3 := requestRun hav h3 t.zipCode t.placeName with hr3
        by_cases hok : r3.ok = true
        · simp only [hok, if_true]
          refine ⟨[mkReqEntry "zip_street_match_nsz" r3], rfl, Or.inl rfl, by simp,
            fun hcon => absurd hcon hc, fun hall => ?_, fun e he _ h2 => ?_⟩
          · exact absurd (hall (mkReqEntry "zip_street_match_nsz" r3) (by simp))
              (by simp [mkReqEntry, hok])
          · rw [show ([mkReqEntry "zip_street_match_nsz" r3]).getLast? =
                some (mkReqEntry "zip_street_match_nsz" r3) from rfl,
              Option.some_inj] at he
            rw [← he] at h2
            simp [mkReqEntry, hok] at h2
        · have hokf : r3.ok = false := by rwa [Bool.not_eq_true] at hok
          simp only [hokf, Bool.false_eq_true, if_false]
          set tg := tigerRun fmt db t.zipCode road t.addressNumber with htg0
          have htgerr : tg.ok = false → tg.error ≠ "" := by
            rw [htg0]
            exact tigerRun_fail_error fmt db t.zipCode road t.addressNumber
          by_cases htok : tg.ok = true
          · simp only [htok, if_true]
            refine ⟨[mkReqEntry "zip_street_match_nsz" r3,
              ⟨"tiger_extrapolate_snap", true, tg.status, true, tg.error, ""⟩],
              rfl, Or.inr rfl, ?_, fun hcon => absurd hcon hc, fun hall => ?_,
              fun e he _ h2 => ?_⟩
            · intro e hmem
              simp only [List.dropLast, List.mem_singleton] at hmem
              rw [hmem]
              simp [mkReqEntry, hokf]
            · exact absurd
                (hall ⟨"tiger_extrapolate_snap", true, tg.status, true, tg.error, ""⟩ (by simp))
                (by simp [htok])
            · rw [show ([mkReqEntry "zip_street_match_nsz" r3,
                  (⟨"tiger_extrapolate_snap", true, tg.status, true, tg.error, ""⟩ :
                    TraceEntry)]).getLast? =
                  some ⟨"tiger_extrapolate_snap", true, tg.status, true, tg.error, ""⟩ from rfl,
                Option.some_inj] at he
              rw [← he] at h2
              simp [htok] at h2
          · have htokf : tg.ok = false := by rwa [Bool.not_eq_true] at htok
            simp only [htokf, Bool.false_eq_true, if_false]
            refine ⟨[mkReqEntry "zip_street_match_nsz" r3,
              ⟨"tiger_extrapolate_snap", true, tg.status, false, tg.error, ""⟩],
              rfl, Or.inr rfl, ?_, fun hcon => absurd hcon hc, fun _ => ?_,
              fun e he _ _ => ?_⟩
            · intro e hmem
              simp only [List.dropLast, List.mem_singleton] at hmem
              rw [hmem]
              simp [mkReqEntry, hokf]
            · rw [if_pos (htgerr htokf)]
              exact htgerr htokf
            · rw [show ([mkReqEntry "zip_street_match_nsz" r3,
                  (⟨"tiger_extrapolate_snap", true, tg.status, false, tg.error, ""⟩ :
                    TraceEntry)]).getLast? =
                  some ⟨"tiger_extrapolate_snap", true, tg.status, false, tg.error, ""⟩ from rfl,
                Option.some_inj] at he
              rw [← he]
              rw [if_pos (htgerr htokf)]

theorem cascadeStage2_spec (hav : ℚ → ℚ → ℚ → ℚ → ℚ) (fmt : ℚ → String) (t : Tags)
    (h2 h3 : HttpResult) (pc : PcResult) (fz : Option (String × Int)) (db : DbResult)
    (trace : List TraceEntry) (pe se : String) :
    ∃ tail,
      (cascadeStage2 hav fmt t h2 h3 pc fz db trace pe se).trace = trace ++ tail ∧
      (∃ k, 1 ≤ k ∧ k ≤ 3 ∧ tail.map TraceEntry.name =
        (["etags_nscs", "zip_street_match_nsz", "tiger_extrapolate_snap"]).take k) ∧
      (∀ e ∈ tail.dropLast, e.ok = false) ∧
      (∀ e, tail.get? 0 = some e →
        (t.streetName = "" ∨ t.placeName = "" ∨ t.stateName = "") →
        e.attempted = false ∧ e.status = "skipped") ∧
      (∀ e, tail.get? 1 = some e → (buildStreetValue t = "" ∨ t.zipCode = "") →
        e.attempted = false ∧ e.status = "skipped") ∧
      ((∀ e ∈ tail, e.ok = false) →
        (cascadeStage2 hav fmt t h2 h3 pc fz db trace pe se).error ≠ "") ∧
      (∀ e, tail.getLast? = some e → e.attempted = true → e.ok = false →
        (cascadeStage2 hav fmt t h2 h3 pc fz db trace pe se).error = e.error) := by
  by_cases hmiss : t.streetName = "" ∨ t.placeName = "" ∨ t.stateName = ""
  · have hcb : (decide (t.streetName ≠ "") && decide (t.placeName ≠ "") &&
        decide (t.stateName ≠ "")) = false := by
      rcases hmiss with h | h | h <;> simp [h]
    simp only [cascadeStage2, hcb, Bool.false_eq_true, if_false]
    obtain ⟨tail3, ht, hnames, hdrop, hskip, herr, hlast⟩ :=
      cascadeStage3_spec hav fmt t h3 pc fz db
        (trace ++ [mkSkipEntry "etags_nscs"
          (missingReason [("StreetName", t.streetName), ("PlaceName", t.placeName),
            ("StateName", t.stateName)])]) pe se
    rcases ht3 : tail3 with _ | ⟨x, xs⟩
    · rw [ht3] at hnames
      rcases hnames with h | h <;> simp at h
    rw [ht3] at ht hnames hdrop hskip herr hlast
    refine ⟨mkSkipEntry "etags_nscs"
        (missingReason [("StreetName", t.streetName), ("PlaceName", t.placeName),
          ("StateName", t.stateName)]) :: x :: xs,
      by rw [ht]; simp, ?_, ?_, ?_, ?_, ?_, ?_⟩
    · rcases hnames with h | h
      · exact ⟨2, by decide, by decide, by simp [mkSkipEntry, h]⟩
      · exact ⟨3, by decide, by decide, by simp [mkSkipEntry, h]⟩
    · intro e hmem
      rw [show (mkSkipEntry "etags_nscs"
          (missingReason [("StreetName", t.streetName), ("PlaceName", t.placeName),
            ("StateName", t.stateName)]) :: x :: xs).dropLast =
          mkSkipEntry "etags_nscs"
            (missingReason [("StreetName", t.streetName), ("PlaceName", t.placeName),
              ("StateName", t.stateName)]) :: (x :: xs).dropLast from rfl] at hmem
      rcases List.mem_cons.mp hmem with he | hm
      · rw [he]
        rfl
      · exact hdrop e hm
    · intro e he _
      rw [show (mkSkipEntry "etags_nscs"
          (missingReason [("StreetName", t.streetName), ("PlaceName", t.placeName),
            ("StateName", t.stateName)]) :: x :: xs).get? 0 =
          some (mkSkipEntry "etags_nscs"
            (missingReason [("StreetName", t.streetName), ("PlaceName", t.placeName),
              ("StateName", t.stateName)])) from rfl, Option.some_inj] at he
      rw [← he]
      exact ⟨rfl, rfl⟩
    · intro e he hbs
      obtain ⟨e', he', hatt', hst'⟩ := hskip hbs
      have hx : x = e' := (List.cons.injEq x xs e' []).mp he' |>.1
      rw [show (mkSkipEntry "etags_nscs"
          (missingReason [("StreetName", t.streetName), ("PlaceName", t.placeName),
            ("StateName", t.stateName)]) :: x :: xs).get? 1 = some x from rfl,
        Option.some_inj] at he
      rw [← he, hx]
      exact ⟨hatt', hst'⟩
    · intro hall
      exact herr fun e hm => hall e (List.mem_cons_of_mem _ hm)
    · intro e he hatt hok
      rw [show (mkSkipEntry "etags_nscs"
          (missingReason [("StreetName", t.streetName), ("PlaceName", t.placeName),
            ("StateName", t.stateName)]) :: x :: xs).getLast? = (x :: xs).getLast? from rfl] at he
      exact hlast e he hatt hok
  · push_neg at hmiss
    have hcb : (decide (t.streetName ≠ "") && decide (t.placeName ≠ "") &&
        decide (t.stateName ≠ "")) = true := by
      simp [hmiss.1, hmiss.2.1, hmiss.2.2]
    simp only [cascadeStage2, cascadeFinish, hcb, if_true]
    set r2 := requestRun hav h2 t.zipCode t.placeName with hr2
    by_cases hok : r2.ok = true
    · simp only [hok, if_true]
      refine ⟨[mkReqEntry "etags_nscs" r2], rfl, ⟨1, by decide, by decide, rfl⟩, by simp,
        ?_, ?_, ?_, ?_⟩
      · intro e _ hm
        rcases hm with h | h | h
        · exact absurd h hmiss.1
        · exact absurd h hmiss.2.1
        · exact absurd h hmiss.2.2
      · intro e he
        simp at he
      · intro hall
        exact absurd (hall (mkReqEntry "etags_nscs" r2) (by simp)) (by simp [mkReqEntry, hok])
      · intro e he _ h2'
        rw [show ([mkReqEntry "etags_nscs" r2]).getLast? = some (mkReqEntry "etags_nscs" r2)
            from rfl, Option.some_inj] at he
        rw [← he] at h2'
        simp [mkReqEntry, hok] at h2'
    · have hokf : r2.ok = false := by rwa [Bool.not_eq_true] at hok
      simp only [hokf, Bool.false_eq_true, if_false]
      obtain ⟨tail3, ht, hnames, hdrop, hskip, herr, hlast⟩ :=
        cascadeStage3_spec hav fmt t h3 pc fz db
          (trace ++ [mkReqEntry "etags_nscs" r2]) r2.error r2.error
      rcases ht3 : tail3 with _ | ⟨x, xs⟩
      · rw [ht3] at hnames
        rcases hnames with h | h <;> simp at h
      rw [ht3] at ht hnames hdrop hskip herr hlast
      refine ⟨mkReqEntry "etags_nscs" r2 :: x :: xs, by rw [ht]; simp, ?_, ?_, ?_, ?_, ?_, ?_⟩
      · rcases hnames with h | h
        · exact ⟨2, by decide, by decide, by simp [mkReqEntry, h]⟩
        · exact ⟨3, by decide, by decide, by simp [mkReqEntry, h]⟩
      · intro e hmem
        rw [show (mkReqEntry "etags_nscs" r2 :: x :: xs).dropLast =
            mkReqEntry "etags_nscs" r2 :: (x :: xs).dropLast from rfl] at hmem
        rcases List.mem_cons.mp hmem with he | hm
        · rw [he]
          simp [mkReqEntry, hokf]
        · exact hdrop e hm
      · intro e _ hm
        rcases hm with h | h | h
        · exact absurd h hmiss.1
        · exact absurd h hmiss.2.1
        · exact absurd h hmiss.2.2
      · intro e he hbs
        obtain ⟨e', he', hatt', hst'⟩ := hskip hbs
        have hx : x = e' := (List.cons.injEq x xs e' []).mp he' |>.1
        rw [show (mkReqEntry "etags_nscs" r2 :: x :: xs).get? 1 = some x from rfl,
          Option.some_inj] at he
        rw [← he, hx]
        exact ⟨hatt', hst'⟩
      · intro hall
        exact herr fun e hm => hall e (List.mem_cons_of_mem _ hm)
      · intro e he hatt hok'
        rw [show (mkReqEntry "etags_nscs" r2 :: x :: xs).getLast? = (x :: xs).getLast?
            from rfl] at he
        exact hlast e he hatt hok'

theorem cascadeTail_spec (hav : ℚ → ℚ → ℚ → ℚ → ℚ) (fmt : ℚ → String) (t : Tags)
    (h2 h3 : HttpResult) (pc : PcResult) (fz : Option (String × Int)) (db : DbResult)
    (e1 : TraceEntry) (pe se : String) (he1 : e1.ok = false) :
    (∃ k, 1 ≤ k ∧ k ≤ 3 ∧
      (cascadeStage2 hav fmt t h2 h3 pc fz db [e1] pe se).trace.map TraceEntry.name =
        e1.name :: (["etags_nscs", "zip_street_match_nsz", "tiger_extrapolate_snap"]).take k) ∧
    (∀ e ∈ (cascadeStage2 hav fmt t h2 h3 pc fz db [e1] pe se).trace.dropLast, e.ok = false) ∧
    ((cascadeStage2 hav fmt t h2 h3 pc fz db [e1] pe se).trace.get? 0 = some e1) ∧
    (∀ e, (cascadeStage2 hav fmt t h2 h3 pc fz db [e1] pe se).trace.get? 1 = some e →
      (t.streetName = "" ∨ t.placeName = "" ∨ t.stateName = "") →
      e.attempted = false ∧ e.status = "skipped") ∧
    (∀ e, (cascadeStage2 hav fmt t h2 h3 pc fz db [e1] pe se).trace.get? 2 = some e →
      (buildStreetValue t = "" ∨ t.zipCode = "") →
      e.attempted = false ∧ e.status = "skipped") ∧
    ((∀ e ∈ (cascadeStage2 hav fmt t h2 h3 pc fz db [e1] pe se).trace, e.ok = false) →
      (cascadeStage2 hav fmt t h2 h3 pc fz db [e1] pe se).error ≠ "") ∧
    (∀ e, (cascadeStage2 hav fmt t h2 h3 pc fz db [e1] pe se).trace.getLast? = some e →
      e.attempted = true → e.ok = false →
      (cascadeStage2 hav fmt t h2 h3 pc fz db [e1] pe se).error = e.error) := by
  obtain ⟨tail2, ht, ⟨k, hk1, hk3, hmap⟩, hdrop, hskip0, hskip1, herr, hlast⟩ :=
    cascadeStage2_spec hav fmt t h2 h3 pc fz db [e1] pe se
  rcases ht2 : tail2 with _ | ⟨x, xs⟩
  · rw [ht2] at hmap
    interval_cases k <;> simp at hmap
  rw [ht2] at ht hmap hdrop hskip0 hskip1 herr hlast
  have htr : (cascadeStage2 hav fmt t h2 h3 pc fz db [e1] pe se).trace = e1 :: x :: xs := by
    rw [ht]
    rfl
  refine ⟨⟨k, hk1, hk3, ?_⟩, ?_, ?_, ?_, ?_, ?_, ?_⟩
  · rw [htr, List.map_cons, hmap]
  · intro e hmem
    rw [htr, show (e1 :: x :: xs).dropLast = e1 :: (x :: xs).dropLast from rfl] at hmem
    rcases List.mem_cons.mp hmem with h | h
    · rw [h]
      exact he1
    · exact hdrop e h
  · rw [htr]
    rfl
  · intro e he hm
    rw [htr, show (e1 :: x :: xs).get? 1 = (x :: xs).get? 0 from rfl] at he
    exact hskip0 e he hm
  · intro e he hm
    rw [htr, show (e1 :: x :: xs).get? 2 = (x :: xs).get? 1 from rfl] at he
    exact hskip1 e he hm
  · intro hall
    rw [htr] at hall
    exact herr fun e hm => hall e (List.mem_cons_of_mem _ hm)
  · intro e he hatt hok
    rw [htr, show (e1 :: x :: xs).getLast? = (x :: xs).getLast? from rfl] at he
    exact hlast e he hatt hok

/-- C3: within one resolution the four strategies are considered strictly in
the fixed order etags_nsz, etags_nscs, zip_street_match_nsz,
tiger_extrapolate_snap (the trace names form a nonempty prefix of that
list); every entry before the last records a non-accepted outcome, so the
cascade stops at the first accepted strategy; a strategy whose required
tags are missing is recorded as skipped and not attempted; if no strategy
is accepted the error of the result is nonempty, and when the last trace
entry was attempted and failed the result carries that entry's error. -/
theorem claim_C3 (hav : ℚ → ℚ → ℚ → ℚ → ℚ) (fmt : ℚ → String) (t : Tags)
    (h1 h2 h3 : HttpResult) (pc : PcResult) (fz : Option (String × Int)) (db : DbResult)
    (out : CascadeOut) (hout : out = cascadeSearch hav fmt t h1 h2 h3 pc fz db) :
    (∃ k, 1 ≤ k ∧ k ≤ 4 ∧ out.trace.map TraceEntry.name = fixedStrategyNames.take k) ∧
    (∀ e ∈ out.trace.dropLast, e.ok = false) ∧
    (∀ e, out.trace.get? 0 = some e → (t.streetName = "" ∨ t.zipCode = "") →
      e.attempted = false ∧ e.status = "skipped") ∧
    (∀ e, out.trace.get? 1 = some e →
      (t.streetName = "" ∨ t.placeName = "" ∨ t.stateName = "") →
      e.attempted = false ∧ e.status = "skipped") ∧
    (∀ e, out.trace.get? 2 = some e → (buildStreetValue t = "" ∨ t.zipCode = "") →
      e.attempted = false ∧ e.status = "skipped") ∧
    ((∀ e ∈ out.trace, e.ok = false) → out.error ≠ "") ∧
    (∀ e, out.trace.getLast? = some e → e.attempted = true → e.ok = false →
      out.error = e.error) := by
  subst hout
  by_cases hm1 : t.streetName = "" ∨ t.zipCode = ""
  · have hcb : (decide (t.streetName ≠ "") && decide (t.zipCode ≠ "")) = false := by
      rcases hm1 with h | h <;> simp [h]
    simp only [cascadeSearch, hcb, Bool.false_eq_true, if_false]
    obtain ⟨⟨k, hk1, hk3, hnames⟩, hdrop, hget0, hget1, hget2, herr, hlast⟩ :=
      cascadeTail_spec hav fmt t h2 h3 pc fz db
        (mkSkipEntry "etags_nsz"
          (missingReason [("StreetName", t.streetName), ("ZipCode", t.zipCode)])) "" "" rfl
    refine ⟨⟨k + 1, by omega, by omega, ?_⟩, hdrop, ?_, hget1, hget2, herr, hlast⟩
    · rw [hnames]
      interval_cases k <;> rfl
    · intro e he _
      rw [hget0, Option.some_inj] at he
      rw [← he]
      exact ⟨rfl, rfl⟩
  · push_neg at hm1
    have hcb : (decide (t.streetName ≠ "") && decide (t.zipCode ≠ "")) = true := by
      simp [hm1.1, hm1.2]
    simp only [cascadeSearch, cascadeFinish, hcb, if_true]
    set r1 := requestRun hav h1 t.zipCode t.placeName with hr1
    by_cases h1ok : r1.ok = true
    · simp only [h1ok, if_true]
      refine ⟨⟨1, by decide, by decide, rfl⟩, by simp, ?_, ?_, ?_, ?_, ?_⟩
      · intro e _ hm
        rcases hm with h | h
        · exact absurd h hm1.1
        · exact absurd h hm1.2
      · intro e he
        simp at he
      · intro e he
        simp at he
      · intro hall
        exact absurd (hall (mkReqEntry "etags_nsz" r1) (by simp)) (by simp [mkReqEntry, h1ok])
      · intro e he _ h2'
        rw [show ([mkReqEntry "etags_nsz" r1]).getLast? = some (mkReqEntry "etags_nsz" r1)
            from rfl, Option.some_inj] at he
        rw [← he] at h2'
        simp [mkReqEntry, h1ok] at h2'
    · have h1okf : r1.ok = false := by rwa [Bool.not_eq_true] at h1ok
      simp only [h1okf, Bool.false_eq_true, if_false]
      obtain ⟨⟨k, hk1, hk3, hnames⟩, hdrop, hget0, hget1, hget2, herr, hlast⟩ :=
        cascadeTail_spec hav fmt t h2 h3 pc fz db (mkReqEntry "etags_nsz" r1)
          r1.error r1.error (by simp [mkReqEntry, h1okf])
      refine ⟨⟨k + 1, by omega, by omega, ?_⟩, hdrop, ?_, hget1, hget2, herr, hlast⟩
      · rw [hnames]
        interval_cases k <;> rfl
      · intro e he hm
        rcases hm with h | h
        · exact absurd h hm1.1
        · exact absurd h hm1.2

theorem claim_C3_witness :
    (∃ k, 1 ≤ k ∧ k ≤ 4 ∧
      (cascadeSearch (fun _ _ _ _ => 0) (fun _ => "") {} HttpResult.timeout
          HttpResult.timeout HttpResult.timeout (PcResult.err "e") none
          DbResult.unavailable).trace.map TraceEntry.name = fixedStrategyNames.take k) ∧
    (∀ e ∈ (cascadeSearch (fun _ _ _ _ => 0) (fun _ => "") {} HttpResult.timeout
        HttpResult.timeout HttpResult.timeout (PcResult.err "e") none
        DbResult.unavailable).trace.dropLast, e.ok = false) ∧
    (∀ e, (cascadeSearch (fun _ _ _ _ => 0) (fun _ => "") {} HttpResult.timeout
        HttpResult.timeout HttpResult.timeout (PcResult.err "e") none
        DbResult.unavailable).trace.get? 0 = some e →
      (Tags.streetName {} = "" ∨ Tags.zipCode {} = "") →
      e.attempted = false ∧ e.status = "skipped") ∧
    (∀ e, (cascadeSearch (fun _ _ _ _ => 0) (fun _ => "") {} HttpResult.timeout
        HttpResult.timeout HttpResult.timeout (PcResult.err "e") none
        DbResult.unavailable).trace.get? 1 = some e →
      (Tags.streetName {} = "" ∨ Tags.placeName {} = "" ∨ Tags.stateName {} = "") →
      e.attempted = false ∧ e.status = "skipped") ∧
    (∀ e, (cascadeSearch (fun _ _ _ _ => 0) (fun _ => "") {} HttpResult.timeout
        HttpResult.timeout HttpResult.timeout (PcResult.err "e") none
        DbResult.unavailable).trace.get? 2 = some e →
      (buildStreetValue {} = "" ∨ Tags.zipCode {} = "") →
      e.attempted = false ∧ e.status = "skipped") ∧
    ((∀ e ∈ (cascadeSearch (fun _ _ _ _ => 0) (fun _ => "") {} HttpResult.timeout
        HttpResult.timeout HttpResult.timeout (PcResult.err "e") none
        DbResult.unavailable).trace, e.ok = false) →
      (cascadeSearch (fun _ _ _ _ => 0) (fun _ => "") {} HttpResult.timeout
        HttpResult.timeout HttpResult.timeout (PcResult.err "e") none
        DbResult.unavailable).error ≠ "") ∧
    (∀ e, (cascadeSearch (fun _ _ _ _ => 0) (fun _ => "") {} HttpResult.timeout
        HttpResult.timeout HttpResult.timeout (PcResult.err "e") none
        DbResult.unavailable).trace.getLast? = some e → e.attempted = true →
      e.ok = false →
      (cascadeSearch (fun _ _ _ _ => 0) (fun _ => "") {} HttpResult.timeout
        HttpResult.timeout HttpResult.timeout (PcResult.err "e") none
        DbResult.unavailable).error = e.error) :=
  claim_C3 (fun _ _ _ _ => 0) (fun _ => "") {} HttpResult.timeout HttpResult.timeout
    HttpResult.timeout (PcResult.err "e") none DbResult.unavailable
    (cascadeSearch (fun _ _ _ _ => 0) (fun _ => "") {} HttpResult.timeout HttpResult.timeout
      HttpResult.timeout (PcResult.err "e") none DbResult.unavailable) rfl

theorem scanFirst_cons_none {α : Type} (f : List Char → List Char → Option α)
    (rev : List Char) (c : Char) (rest : List Char) (h : f rev (c :: rest) = none) :
    scanFirst f rev (c :: rest) = scanFirst f (c :: rev) rest := by
  simp only [scanFirst, h]

theorem scanFirst_nil_none {α : Type} (f : List Char → List Char → Option α)
    (rev : List Char) (h : f rev [] = none) : scanFirst f rev [] = none := by
  simp only [scanFirst, h]

theorem scanFirst_some {α : Type} (f : List Char → List Char → Option α)
    (rev l : List Char) (a : α) (h : f rev l = some a) :
    scanFirst f rev l = some (rev.reverse, a) := by
  cases l <;> simp only [scanFirst, h]

theorem scanFirst_skip {α : Type} (f : List Char → List Char → Option α)
    (P : Char → Prop) (hfail : ∀ rev c rest, P c → f rev (c :: rest) = none) :
    ∀ (t rev u : List Char), (∀ c ∈ t, P c) →
      scanFirst f rev (t ++ u) = scanFirst f (t.reverse ++ rev) u := by
  intro t
  induction t with
  | nil =>
    intro rev u _
    simp
  | cons c t' ih =>
    intro rev u ht
    rw [List.cons_append,
      scanFirst_cons_none f rev c (t' ++ u) (hfail rev c _ (ht c (by simp)))]
    rw [ih (c :: rev) u (fun d hd => ht d (by simp [hd]))]
    simp

theorem zip5At_nondigit (rev : List Char) (c : Char) (rest : List Char)
    (h : isDigitCh c = false) : zip5At rev (c :: rest) = none := by
  rcases rest with _ | ⟨d2, rest⟩
  · rfl
  rcases rest with _ | ⟨d3, rest⟩
  · rfl
  rcases rest with _ | ⟨d4, rest⟩
  · rfl
  rcases rest with _ | ⟨d5, rest⟩
  · rfl
  simp [zip5At, h]

theorem zip4TrailingAt_nondigit (rev : List Char) (c : Char) (rest : List Char)
    (h : isDigitCh c = false) : zip4TrailingAt rev (c :: rest) = none := by
  rcases rest with _ | ⟨d2, rest⟩
  · rfl
  rcases rest with _ | ⟨d3, rest⟩
  · rfl
  rcases rest with _ | ⟨d4, rest⟩
  · rfl
  simp [zip4TrailingAt, h]

theorem zip4BeforeStateAt_nondigit (rev : List Char) (c : Char) (rest : List Char)
    (h : isDigitCh c = false) : zip4BeforeStateAt rev (c :: rest) = none := by
  rcases rest with _ | ⟨d2, rest⟩
  · rfl
  rcases rest with _ | ⟨d3, rest⟩
  · rfl
  rcases rest with _ | ⟨d4, rest⟩
  · rfl
  simp [zip4BeforeStateAt, h]

theorem zip4TrailingAt_space (rev l : List Char) (h : ' ' ∈ l.take 4) :
    zip4TrailingAt rev l = none := by
  rcases l with _ | ⟨d1, l⟩
  · rfl
  rcases l with _ | ⟨d2, l⟩
  · rfl
  rcases l with _ | ⟨d3, l⟩
  · rfl
  rcases l with _ | ⟨d4, l⟩
  · rfl
  have hall : ([d1, d2, d3, d4].all isDigitCh) = false :=
    List.all_eq_false.mpr ⟨' ', by simpa [List.take] using h, by decide⟩
  simp [zip4TrailingAt, hall]

theorem hasFiveDigitRun_tail (c : Char) (t : List Char)
    (h : hasFiveDigitRun (c :: t) = false) : hasFiveDigitRun t = false := by
  rcases t with _ | ⟨d2, t⟩
  · rfl
  rcases t with _ | ⟨d3, t⟩
  · rfl
  rcases t with _ | ⟨d4, t⟩
  · rfl
  rcases t with _ | ⟨d5, t⟩
  · rfl
  rw [hasFiveDigitRun] at h
  exact (Bool.or_eq_false_iff.mp h).2

theorem zip5At_none_of_no_run (rev : List Char) (c : Char) (t : List Char)
    (h : hasFiveDigitRun (c :: t) = false) : zip5At rev (c :: t) = none := by
  rcases t with _ | ⟨d2, t⟩
  · rfl
  rcases t with _ | ⟨d3, t⟩
  · rfl
  rcases t with _ | ⟨d4, t⟩
  · rfl
  rcases t with _ | ⟨d5, t⟩
  · rfl
  rw [hasFiveDigitRun] at h
  simp [zip5At, (Bool.or_eq_false_iff.mp h).1]

theorem scanFirst_zip5At_none :
    ∀ (l rev : List Char), hasFiveDigitRun l = false → scanFirst zip5At rev l = none := by
  intro l
  induction l with
  | nil =>
    intro rev _
    exact scanFirst_nil_none _ _ rfl
  | cons c t ih =>
    intro rev h
    rw [scanFirst_cons_none _ _ _ _ (zip5At_none_of_no_run rev c t h)]
    exact ih _ (hasFiveDigitRun_tail c t h)

theorem hasFiveDigitRun_eq_false :
    ∀ l : List Char, l.countP isDigitCh ≤ 4 → hasFiveDigitRun l = false := by
  intro l
  induction l with
  | nil =>
    intro _
    rfl
  | cons c t ih =>
    intro h
    rcases t with _ | ⟨d2, t⟩
    · rfl
    rcases t with _ | ⟨d3, t⟩
    · rfl
    rcases t with _ | ⟨d4, t⟩
    · rfl
    rcases t with _ | ⟨d5, t⟩
    · rfl
    have htail : (d2 :: d3 :: d4 :: d5 :: t).countP isDigitCh ≤ 4 := by
      simp only [List.countP_cons] at h ⊢
      omega
    have hwin : ([c, d2, d3, d4, d5].all isDigitCh) = false := by
      cases hw : ([c, d2, d3, d4, d5].all isDigitCh)
      · rfl
      · exfalso
        simp only [List.all_cons, List.all_nil, Bool.and_true, Bool.and_eq_true] at hw
        simp only [List.countP_cons, hw.1, hw.2.1, hw.2.2.1, hw.2.2.2.1, hw.2.2.2.2,
          if_true] at h
        omega
    rw [hasFiveDigitRun, hwin, Bool.false_or]
    exact ih htail

theorem findZip5_none_of_few_digits (l : List Char) (h : l.countP isDigitCh ≤ 4) :
    findZip5 l = none :=
  scanFirst_zip5At_none l [] (hasFiveDigitRun_eq_false l h)

theorem pyLStrip_eq_self (l : List Char) (h : ∀ c ∈ l.take 1, isSpaceCh c = false) :
    pyLStrip l = l := by
  cases l with
  | nil => rfl
  | cons c t =>
    have hc := h c (by simp)
    simp [pyLStrip, List.dropWhile_cons, hc]

theorem pyRStrip_eq_self (l : List Char) (h : ∀ c ∈ l.reverse.take 1, isSpaceCh c = false) :
    pyRStrip l = l := by
  unfold pyRStrip
  cases hr : l.reverse with
  | nil =>
    have : l = [] := by simpa using congrArg List.reverse hr
    simp [this]
  | cons c t =>
    rw [hr] at h
    have hc := h c (by simp)
    rw [List.dropWhile_cons, hc]
    simp only [Bool.false_eq_true, if_false]
    rw [← hr, List.reverse_reverse]

theorem pyStrip_eq_self (l : List Char) (h1 : ∀ c ∈ l.take 1, isSpaceCh c = false)
    (h2 : ∀ c ∈ l.reverse.take 1, isSpaceCh c = false) : pyStrip l = l := by
  rw [pyStrip, pyLStrip_eq_self l h1, pyRStrip_eq_self l h2]

theorem repairZip_trailing4 (q : List Char) (hqne : q ≠ [])
    (hq : ∀ c ∈ q, isDigitCh c = false)
    (hqh : ∀ c ∈ q.take 1, isSpaceCh c = false)
    (hunit : looksLikeUnitNumberContext (q ++ [' ']) = false)
    (hpo : looksLikePoBoxContext (q ++ [' ']) = false) :
    repairZipRiMa (String.mk (q ++ ' ' :: ['2', '8', '3', '5'])) =
      ⟨String.mk (replaceSpanCleanup (q ++ [' ']) ['0', '2', '8', '3', '5'] []),
       some (String.mk ['0', '2', '8', '3', '5']), some "zip4_trailing"⟩ := by
  have hstrip : pyStrip (q ++ ' ' :: ['2', '8', '3', '5']) = q ++ ' ' :: ['2', '8', '3', '5'] := by
    refine pyStrip_eq_self _ ?_ ?_
    · rcases q with _ | ⟨c, q'⟩
      · exact absurd rfl hqne
      · intro d hd
        simp only [List.cons_append, List.take_succ_cons, List.take_zero,
          List.mem_singleton] at hd
        rw [hd]
        exact hqh c (by simp)
    · intro d hd
      rw [show (q ++ ' ' :: ['2', '8', '3', '5']).reverse =
          '5' :: '3' :: '8' :: '2' :: ' ' :: q.reverse from by simp] at hd
      simp only [List.take_succ_cons, List.take_zero, List.mem_singleton] at hd
      rw [hd]
      decide
  have hcount : (q ++ ' ' :: ['2', '8', '3', '5']).countP isDigitCh ≤ 4 := by
    rw [List.countP_append]
    have h0 : q.countP isDigitCh = 0 :=
      List.countP_eq_zero.mpr (fun c hc => by simp [hq c hc])
    rw [h0]
    decide
  have hfind : findZip5 (q ++ ' ' :: ['2', '8', '3', '5']) = none :=
    findZip5_none_of_few_digits _ hcount
  have hne : q ++ ' ' :: ['2', '8', '3', '5'] ≠ [] := by
    rcases q with _ | ⟨c, q'⟩
    · exact absurd rfl hqne
    · simp
  have hmatch : zip4TrailingAt ((q ++ [' ']).reverse ++ []) ['2', '8', '3', '5'] =
      some (['2', '8', '3', '5'], []) := by
    rw [show (q ++ [' ']).reverse ++ [] = ' ' :: q.reverse from by simp]
    simp [zip4TrailingAt, show prevNonWord (' ' :: q.reverse) = true from rfl,
      show (['2', '8', '3', '5'].all isDigitCh) = true from by decide,
      show restOkTrailing ([] : List Char) = true from rfl]
  have hscan : scanFirst zip4TrailingAt [] (q ++ ' ' :: ['2', '8', '3', '5']) =
      some (q ++ [' '], (['2', '8', '3', '5'], [])) := by
    rw [show q ++ ' ' :: ['2', '8', '3', '5'] = (q ++ [' ']) ++ ['2', '8', '3', '5'] from
      by simp]
    rw [scanFirst_skip zip4TrailingAt (fun c => isDigitCh c = false)
      (fun rev c rest hc => zip4TrailingAt_nondigit rev c rest hc) (q ++ [' ']) [] _
      (by
        intro c hc
        rcases List.mem_append.mp hc with h | h
        · exact hq c h
        · rw [List.mem_singleton.mp h]
          decide)]
    rw [scanFirst_some _ _ _ _ hmatch]
    simp
  rw [repairZipRiMa]
  simp only [stringMk_data, hstrip, hne, if_false, hfind, hscan, hunit, hpo,
    Bool.not_false, Bool.and_self, if_true]

theorem repairZip_before4 (p st : List Char)
    (hp : ∀ c ∈ p, isDigitCh c = false)
    (hph : ∀ c ∈ p.take 1, isSpaceCh c = false)
    (hstd : ∀ c ∈ st, isDigitCh c = false)
    (hstl : ∀ c ∈ st.reverse.take 1, isSpaceCh c = false)
    (hstne : st ≠ [])
    (hrest : restOkTrailing (' ' :: st) = false)
    (hst4 : h4State (stateAltMatches ((' ' :: st).dropWhile (fun c => !isWordCh c))) = true)
    (hpb : prevNonWord p.reverse = true)
    (hscan3 : scanFirst zip4AfterStateAt []
      (p ++ '2' :: '8' :: '3' :: '5' :: ' ' :: st) = none)
    (hunit : looksLikeUnitNumberContext p = false)
    (hpo : looksLikePoBoxContext p = false) :
    repairZipRiMa (String.mk (p ++ '2' :: '8' :: '3' :: '5' :: ' ' :: st)) =
      ⟨String.mk (replaceSpanCleanup p ['0', '2', '8', '3', '5'] (' ' :: st)),
       some (String.mk ['0', '2', '8', '3', '5']), some "zip4_before_state"⟩ := by
  rcases hsr : st.reverse with _ | ⟨e0, sr⟩
  · exact absurd (by simpa using congrArg List.reverse hsr) hstne
  have hstrip : pyStrip (p ++ '2' :: '8' :: '3' :: '5' :: ' ' :: st) =
      p ++ '2' :: '8' :: '3' :: '5' :: ' ' :: st := by
    refine pyStrip_eq_self _ ?_ ?_
    · rcases p with _ | ⟨c, p'⟩
      · intro d hd
        simp only [List.nil_append, List.take_succ_cons, List.take_zero,
          List.mem_singleton] at hd
        rw [hd]
        decide
      · intro d hd
        simp only [List.cons_append, List.take_succ_cons, List.take_zero,
          List.mem_singleton] at hd
        rw [hd]
        exact hph c (by simp)
    · intro d hd
      rw [show (p ++ '2' :: '8' :: '3' :: '5' :: ' ' :: st).reverse =
          st.reverse ++ ' ' :: '5' :: '3' :: '8' :: '2' :: p.reverse from by simp] at hd
      rw [hsr] at hd
      simp only [List.cons_append, List.take_succ_cons, List.take_zero,
        List.mem_singleton] at hd
      rw [hd]
      exact hstl e0 (by rw [hsr]; simp)
  have hcount : (p ++ '2' :: '8' :: '3' :: '5' :: ' ' :: st).countP isDigitCh ≤ 4 := by
    rw [List.countP_append]
    have h0 : p.countP isDigitCh = 0 :=
      List.countP_eq_zero.mpr (fun c hc => by simp [hp c hc])
    have h1 : st.countP isDigitCh = 0 :=
      List.countP_eq_zero.mpr (fun c hc => by simp [hstd c hc])
    simp only [List.countP_cons, h0, h1]
    decide
  have hfind : findZip5 (p ++ '2' :: '8' :: '3' :: '5' :: ' ' :: st) = none :=
    findZip5_none_of_few_digits _ hcount
  have hne : p ++ '2' :: '8' :: '3' :: '5' :: ' ' :: st ≠ [] := by
    rcases p with _ | ⟨c, p'⟩ <;> simp
  have hscan2 : scanFirst zip4TrailingAt []
      (p ++ '2' :: '8' :: '3' :: '5' :: ' ' :: st) = none := by
    rw [scanFirst_skip zip4TrailingAt (fun c => isDigitCh c = false)
      (fun rev c rest hc => zip4TrailingAt_nondigit rev c rest hc) p []
      ('2' :: '8' :: '3' :: '5' :: ' ' :: st) hp]
    rw [scanFirst_cons_none _ _ _ _ (by simp [zip4TrailingAt, hrest])]
    rw [scanFirst_cons_none _ _ _ _ (zip4TrailingAt_space _ _ (by simp))]
    rw [scanFirst_cons_none _ _ _ _ (zip4TrailingAt_space _ _ (by simp))]
    rw [scanFirst_cons_none _ _ _ _ (zip4TrailingAt_space _ _ (by simp))]
    rw [show (' ' :: st) = (' ' :: st) ++ [] from by simp]
    rw [scanFirst_skip zip4TrailingAt (fun c => isDigitCh c = false)
      (fun rev c rest hc => zip4TrailingAt_nondigit rev c rest hc) (' ' :: st) _ []
      (by
        intro c hc
        rcases List.mem_cons.mp hc with h | h
        · rw [h]
          decide
        · exact hstd c h)]
    exact scanFirst_nil_none _ _ rfl
  have hmatch : zip4BeforeStateAt (p.reverse ++ []) ('2' :: '8' :: '3' :: '5' :: ' ' :: st) =
      some (['2', '8', '3', '5'], ' ' :: st) := by
    rw [List.append_nil]
    simp [zip4BeforeStateAt, hpb,
      show (['2', '8', '3', '5'].all isDigitCh) = true from by decide,
      show nextNonWord (' ' :: st) = true from rfl, hst4]
  have hscan4 : scanFirst zip4BeforeStateAt []
      (p ++ '2' :: '8' :: '3' :: '5' :: ' ' :: st) =
      some (p, (['2', '8', '3', '5'], ' ' :: st)) := by
    rw [scanFirst_skip zip4BeforeStateAt (fun c => isDigitCh c = false)
      (fun rev c rest hc => zip4BeforeStateAt_nondigit rev c rest hc) p []
      ('2' :: '8' :: '3' :: '5' :: ' ' :: st) hp]
    rw [scanFirst_some _ _ _ _ hmatch]
    simp
  rw [repairZipRiMa]
  simp only [stringMk_data, hstrip, hne, if_false, hfind, hscan2]
  rw [tryAfterState]
  simp only [hscan3]
  rw [tryBeforeState]
  simp only [hscan4, hunit, hpo, Bool.not_false, Bool.and_self, if_true]

theorem c7A (p st : List Char) (hp : ∀ c ∈ p, isDigitCh c = false)
    (hph : ∀ c ∈ p.take 1, isSpaceCh c = false)
    (hstd : ∀ c ∈ st, isDigitCh c = false)
    (hsth : ∀ c ∈ st.take 1, isSpaceCh c = false)
    (hstne : st ≠ [])
    (hu : looksLikeUnitNumberContext (p ++ st ++ [' ']) = false)
    (hpo : looksLikePoBoxContext (p ++ st ++ [' ']) = false) :
    (repairZipRiMa (String.mk (p ++ st ++ ' ' :: ['2', '8', '3', '5']))).zip5 =
      some "02835" ∧
    (repairZipRiMa (String.mk (p ++ st ++ ' ' :: ['2', '8', '3', '5']))).zipSource =
      some "zip4_trailing" := by
  have hqne : p ++ st ≠ [] := fun h => hstne (List.append_eq_nil.mp h).2
  have hq : ∀ c ∈ p ++ st, isDigitCh c = false := by
    intro c hc
    rcases List.mem_append.mp hc with h | h
    · exact hp c h
    · exact hstd c h
  have hqh : ∀ c ∈ (p ++ st).take 1, isSpaceCh c = false := by
    rcases p with _ | ⟨c0, p'⟩
    · simpa using hsth
    · intro c hc
      simp only [List.cons_append, List.take_succ_cons, List.take_zero,
        List.mem_singleton] at hc
      rw [hc]
      exact hph c0 (by simp)
  have h := repairZip_trailing4 (p ++ st) hqne hq hqh hu hpo
  rw [h]
  exact ⟨rfl, rfl⟩

theorem c7B (p st : List Char) (hp : ∀ c ∈ p, isDigitCh c = false)
    (hph : ∀ c ∈ p.take 1, isSpaceCh c = false)
    (hstd : ∀ c ∈ st, isDigitCh c = false)
    (hstl : ∀ c ∈ st.reverse.take 1, isSpaceCh c = false)
    (hstne : st ≠ [])
    (hrest : restOkTrailing (' ' :: st) = false)
    (hst4 : h4State (stateAltMatches ((' ' :: st).dropWhile (fun c => !isWordCh c))) = true)
    (hpb : prevNonWord p.reverse = true)
    (hscan3 : scanFirst zip4AfterStateAt []
      (p ++ '2' :: '8' :: '3' :: '5' :: ' ' :: st) = none)
    (hunit : looksLikeUnitNumberContext p = false)
    (hpo : looksLikePoBoxContext p = false) :
    (repairZipRiMa (String.mk (p ++ '2' :: '8' :: '3' :: '5' :: ' ' :: st))).zip5 =
      some "02835" ∧
    (repairZipRiMa (String.mk (p ++ '2' :: '8' :: '3' :: '5' :: ' ' :: st))).zipSource =
      some "zip4_before_state" := by
  have h := repairZip_before4 p st hp hph hstd hstl hstne hrest hst4 hpb hscan3 hunit hpo
  rw [h]
  exact ⟨rfl, rfl⟩

/-- C7 (counterexample): the claim fails as stated.  The raw address
`"12345 Main St RI 2835"` ends in `"RI 2835"` with no unit or PO-Box
marker, yet `repair_zip_ri_ma` yields zip5 `"12345"` (the 5-digit
heuristic matches first) rather than `"02835"`. -/
theorem claim_C7_counterexample :
    (repairZipRiMa "12345 Main St RI 2835").zipSource = some "zip5" ∧
    (repairZipRiMa "12345 Main St RI 2835").zip5 = some "12345" ∧
    (repairZipRiMa "12345 Main St RI 2835").zip5 ≠ some "02835" := by
  refine ⟨rfl, rfl, by decide⟩

/-- C7 (amended): for an address ending in `"<state-token> 2835"` (state
token RI, MA, Rhode Island or Massachusetts) whose remainder contains no
digit, starts with no whitespace, and shows no unit or PO-Box marker
before the span, `repair_zip_ri_ma` zero-pads the 4-digit token and
returns zip5 `"02835"` via the trailing-ZIP4 heuristic; for an address
ending in `"2835 <state-token>"` the same holds via the ZIP4-before-state
heuristic provided additionally the prefix ends at a word boundary and the
state-then-ZIP4 heuristic has no earlier match. -/
theorem claim_C7_amended (p st : List Char)
    (hst : st ∈ [['R', 'I'], ['M', 'A'],
      ['R', 'h', 'o', 'd', 'e', ' ', 'I', 's', 'l', 'a', 'n', 'd'],
      ['M', 'a', 's', 's', 'a', 'c', 'h', 'u', 's', 'e', 't', 't', 's']])
    (hp : ∀ c ∈ p, isDigitCh c = false)
    (hph : ∀ c ∈ p.take 1, isSpaceCh c = false) :
    (looksLikeUnitNumberContext (p ++ st ++ [' ']) = false →
      looksLikePoBoxContext (p ++ st ++ [' ']) = false →
      (repairZipRiMa (String.mk (p ++ st ++ ' ' :: ['2', '8', '3', '5']))).zip5 =
        some "02835" ∧
      (repairZipRiMa (String.mk (p ++ st ++ ' ' :: ['2', '8', '3', '5']))).zipSource =
        some "zip4_trailing") ∧
    (prevNonWord p.reverse = true →
      scanFirst zip4AfterStateAt [] (p ++ '2' :: '8' :: '3' :: '5' :: ' ' :: st) = none →
      looksLikeUnitNumberContext p = false →
      looksLikePoBoxContext p = false →
      (repairZipRiMa (String.mk (p ++ '2' :: '8' :: '3' :: '5' :: ' ' :: st))).zip5 =
        some "02835" ∧
      (repairZipRiMa (String.mk (p ++ '2' :: '8' :: '3' :: '5' :: ' ' :: st))).zipSource =
        some "zip4_before_state") := by
  simp only [List.mem_cons, List.mem_singleton, List.not_mem_nil, or_false] at hst
  rcases hst with rfl | rfl | rfl | rfl <;>
    exact ⟨fun hu hpo => c7A p _ hp hph (by decide) (by decide) (by decide) hu hpo,
      fun hpb hscan3 hu hpo =>
        c7B p _ hp hph (by decide) (by decide) (by decide) (by decide) (by decide)
          hpb hscan3 hu hpo⟩

theorem claim_C7_amended_witness :
    ((repairZipRiMa (String.mk (['M', 'a', 'i', 'n', ' ', 'S', 't', ' '] ++ ['R', 'I'] ++
        ' ' :: ['2', '8', '3', '5']))).zip5 = some "02835" ∧
      (repairZipRiMa (String.mk (['M', 'a', 'i', 'n', ' ', 'S', 't', ' '] ++ ['R', 'I'] ++
        ' ' :: ['2', '8', '3', '5']))).zipSource = some "zip4_trailing") ∧
    ((repairZipRiMa (String.mk (['M', 'a', 'i', 'n', ' ', 'S', 't', ' '] ++
        '2' :: '8' :: '3' :: '5' :: ' ' :: ['R', 'I']))).zip5 = some "02835" ∧
      (repairZipRiMa (String.mk (['M', 'a', 'i', 'n', ' ', 'S', 't', ' '] ++
        '2' :: '8' :: '3' :: '5' :: ' ' :: ['R', 'I']))).zipSource =
        some "zip4_before_state") := by
  have h := claim_C7_amended ['M', 'a', 'i', 'n', ' ', 'S', 't', ' '] ['R', 'I']
    (by decide) (by decide) (by decide)
  exact ⟨h.1 (by decide) (by decide), h.2 (by decide) (by decide) (by decide) (by decide)⟩

/-- C8 (counterexample): the claim fails as stated.  No heuristic matches
`"Main  Street"`, and `repair_zip_ri_ma` returns it verbatim (double space
preserved): the promised punctuation cleanup (which would collapse the
whitespace run) is not applied on the no-match path. -/
theorem claim_C8_counterexample :
    (repairZipRiMa "Main  Street").zip5 = none ∧
    (repairZipRiMa "Main  Street").zipSource = none ∧
    (repairZipRiMa "Main  Street").cleanedAddress = "Main  Street" ∧
    punctuationCleanup "Main  Street" = "Main Street" ∧
    (repairZipRiMa "Main  Street").cleanedAddress ≠ punctuationCleanup "Main  Street" :=
  ⟨rfl, rfl, rfl, by decide, by decide⟩

/-- C8 (amended): when none of the four ZIP heuristics matches, zip5 and
zip_source are absent and the returned address is the input after
`str.strip()` only — interior punctuation and whitespace are untouched
(no collapse of repeated whitespace or commas); the function is total, so
it never raises. -/
theorem claim_C8_amended (s : String)
    (h1 : findZip5 (pyStrip s.data) = none)
    (h2 : scanFirst zip4TrailingAt [] (pyStrip s.data) = none)
    (h3 : scanFirst zip4AfterStateAt [] (pyStrip s.data) = none)
    (h4 : scanFirst zip4BeforeStateAt [] (pyStrip s.data) = none) :
    repairZipRiMa s = ⟨String.mk (pyStrip s.data), none, none⟩ := by
  rw [repairZipRiMa]
  by_cases hnil : pyStrip s.data = []
  · rw [if_pos hnil]
  · rw [if_neg hnil]
    simp only [h1, h2]
    rw [tryAfterState]
    simp only [h3]
    rw [tryBeforeState]
    simp only [h4]

theorem claim_C8_amended_witness :
    (findZip5 (pyStrip ("Main  Street").data) = none ∧
      scanFirst zip4TrailingAt [] (pyStrip ("Main  Street").data) = none ∧
      scanFirst zip4AfterStateAt [] (pyStrip ("Main  Street").data) = none ∧
      scanFirst zip4BeforeStateAt [] (pyStrip ("Main  Street").data) = none) ∧
    repairZipRiMa "Main  Street" =
      ⟨String.mk (pyStrip ("Main  Street").data), none, none⟩ :=
  ⟨⟨by decide, by decide, by decide, by decide⟩,
    claim_C8_amended "Main  Street" (by decide) (by decide) (by decide) (by decide)⟩

end Bbbs
